import Mathlib

/-!
Verification development for the introspection SDK's attribute-conversion
engine and span-processing pipeline (a shallow embedding of
`introspection_sdk/converters/openinference.py`, `types.py`,
`span_processor.py`, `converters/openai.py` and `tracing_processor.py`).

Python's `json.loads` / `json.dumps` / `str` are treated as oracles
(parameters of the embedded functions): `json.loads` as a partial function
`String → Option PyJson` (returning `none` exactly when `json.JSONDecodeError`
would be raised), `json.dumps` as a total function `PyJson → String`.
Python exceptions that the source does not catch (`TypeError`,
`AttributeError`, pydantic `ValidationError`) are modelled with `Except`.
Python dicts are modelled as insertion-ordered association lists with the
dict update/lookup discipline made explicit.  Floating-point attribute
values are not modelled; JSON numbers are modelled as integers.
-/

namespace Introspection

/-- JSON values as returned by Python `json.loads`.  `null` doubles as
Python's `None` (which is exactly what `json.loads` maps JSON `null` to). -/
inductive PyJson where
  | null
  | bool (b : Bool)
  | num (n : Int)
  | str (s : String)
  | arr (items : List PyJson)
  | obj (fields : List (String × PyJson))
deriving Repr, Inhabited

/-- OpenTelemetry attribute scalar values (strings, integers, booleans). -/
inductive AttrValue where
  | str (s : String)
  | int (n : Int)
  | bool (b : Bool)
deriving DecidableEq, Repr, Inhabited

/-- Python truthiness of an attribute value. -/
def AttrValue.truthy : AttrValue → Bool
  | .str s => decide (s ≠ "")
  | .int n => decide (n ≠ 0)
  | .bool b => b

/-- Python truthiness of a JSON value. -/
def PyJson.truthy : PyJson → Bool
  | .null => false
  | .bool b => b
  | .num n => decide (n ≠ 0)
  | .str s => decide (s ≠ "")
  | .arr items => !items.isEmpty
  | .obj fields => !fields.isEmpty

/-- Attribute values embed into JSON values (a Python str/int/bool attribute
value is itself a valid JSON value when placed inside a dict that will be
`json.dumps`-ed). -/
def AttrValue.toJson : AttrValue → PyJson
  | .str s => .str s
  | .int n => .num n
  | .bool b => .bool b

/-- A Python dict with string keys, as an insertion-ordered association list
with pairwise-distinct keys (the distinctness is an invariant of the maps the
code builds; it is stated as a hypothesis where a theorem needs it). -/
abbrev Attrs := List (String × AttrValue)

/-- First-match association-list lookup (on a duplicate-free list this is
exactly Python `dict.get(k)` returning `None` for a missing key). -/
def lookupKey {V : Type} (m : List (String × V)) (k : String) : Option V :=
  (m.find? (fun p => decide (p.1 = k))).map (·.2)

/-- Python `dict.get(k)` on a dict of JSON values: a missing key yields
Python `None`, i.e. `PyJson.null`. -/
def pyGet (kvs : List (String × PyJson)) (k : String) : PyJson :=
  (lookupKey kvs k).getD .null

/-- View of a JSON value as a dict (Python `isinstance(x, dict)`). -/
def PyJson.asObj? : PyJson → Option (List (String × PyJson))
  | .obj fields => some fields
  | _ => none

/-- Python dict assignment `m[k] = v`: replace the value in place when the key
exists (at its original position), else append the new binding. -/
def setAssoc {K V : Type} [DecidableEq K] : List (K × V) → K → V → List (K × V)
  | [], k, v => [(k, v)]
  | p :: m, k, v => if p.1 = k then (k, v) :: m else p :: setAssoc m k v

/-- Python get-or-create-then-mutate on a dict entry: `if k not in m:
m[k] = d` followed by a field mutation `f` of `m[k]`. -/
def updAssoc {K V : Type} [DecidableEq K] :
    List (K × V) → K → V → (V → V) → List (K × V)
  | [], k, d, f => [(k, f d)]
  | p :: m, k, d, f =>
    if p.1 = k then (k, f p.2) :: m else p :: updAssoc m k d f

/-- Python `dict.update`: apply every binding of `upd` to `base` in order. -/
def updateDict {K V : Type} [DecidableEq K] (base upd : List (K × V)) :
    List (K × V) :=
  upd.foldl (fun b kv => setAssoc b kv.1 kv.2) base

/-- Value of an `Option`-keyed assoc entry `m[k]` when the key is known
present (Python `m[k]`); an absent key falls back to `default`. -/
def getAssoc {K V : Type} [DecidableEq K] [Inhabited V] (m : List (K × V))
    (k : K) : V :=
  ((m.find? (fun p => decide (p.1 = k))).map (·.2)).getD default

/-- Keys of a map, sorted ascending: Python `sorted(m.keys())` for a dict
with `int` keys. -/
def sortedKeys {V : Type} (m : List (Nat × V)) : List Nat :=
  List.insertionSort (· ≤ ·) (m.map Prod.fst)

/-- Character-list test that `pre` is a prefix of `s` (Python
`str.startswith`). -/
def clPrefix : List Char → List Char → Bool
  | [], _ => true
  | _ :: _, [] => false
  | p :: ps, c :: cs => p = c && clPrefix ps cs

/-- String prefix test, `s.startswith pre` in the source. -/
def strStartsWith (s pre : String) : Bool := clPrefix pre.data s.data

/-- Numeric value of a run of decimal digits (Python `int` applied to the
digits captured by a `(\d+)` regex group). -/
def digitsToNat (l : List Char) : Nat :=
  l.foldl (fun acc c => 10 * acc + (c.toNat - 48)) 0

/-- Strip a known prefix from a character list, or fail. -/
def stripPre : List Char → List Char → Option (List Char)
  | [], cs => some cs
  | _ :: _, [] => none
  | p :: ps, c :: cs => if p = c then stripPre ps cs else none

/-!
Embedding of `introspection_sdk/converters/openinference.py`.

The attribute-key constants are the values of the
`openinference.semconv.trace` constants the source imports.
-/

namespace SpanAttributes

def LLM_MODEL_NAME : String := "llm.model_name"

def LLM_SYSTEM : String := "llm.system"

def LLM_TOKEN_COUNT_PROMPT : String := "llm.token_count.prompt"

def LLM_TOKEN_COUNT_COMPLETION : String := "llm.token_count.completion"

def OUTPUT_VALUE : String := "output.value"

def INPUT_VALUE : String := "input.value"

def LLM_INPUT_MESSAGES : String := "llm.input_messages"

def LLM_OUTPUT_MESSAGES : String := "llm.output_messages"

def LLM_TOOLS : String := "llm.tools"

end SpanAttributes

namespace ToolAttributes

def TOOL_JSON_SCHEMA : String := "tool.json_schema"

end ToolAttributes

/-- Result of matching the anchored regex `{pre}\.(\d+)\.message\.(.+)`
against `key` (Python `re.match`: anchored at the start; `(\d+)` is a maximal
digit run because the following literal `.` cannot match a digit): the
numeric index and the remaining field path. -/
def splitMsgKey (pre key : String) : Option (Nat × String) :=
  match stripPre (pre.data ++ ['.']) key.data with
  | none => none
  | some rest =>
    let digits := rest.takeWhile Char.isDigit
    if digits.isEmpty then none
    else
      match stripPre ".message.".data (rest.drop digits.length) with
      | none => none
      | some fieldPath =>
        if fieldPath.isEmpty then none
        else some (digitsToNat digits, String.mk fieldPath)

/-- Result of matching `tool_calls\.(\d+)\.tool_call\.(.+)` against the field
path (the source first checks `rest.startswith("tool_calls.")`, which the
regex subsumes). -/
def splitToolCallKey (rest : String) : Option (Nat × String) :=
  match stripPre "tool_calls.".data rest.data with
  | none => none
  | some r2 =>
    let digits := r2.takeWhile Char.isDigit
    if digits.isEmpty then none
    else
      match stripPre ".tool_call.".data (r2.drop digits.length) with
      | none => none
      | some attrPath =>
        if attrPath.isEmpty then none
        else some (digitsToNat digits, String.mk attrPath)

/-- Result of matching `contents\.(\d+)\.message_content\.(.+)` against the
field path. -/
def splitContentKey (rest : String) : Option (Nat × String) :=
  match stripPre "contents.".data rest.data with
  | none => none
  | some r2 =>
    let digits := r2.takeWhile Char.isDigit
    if digits.isEmpty then none
    else
      match stripPre ".message_content.".data (r2.drop digits.length) with
      | none => none
      | some attrPath =>
        if attrPath.isEmpty then none
        else some (digitsToNat digits, String.mk attrPath)

/-- Extraction of `gen_ai.request.model` from `llm.model_name` (string values
only). -/
def extract_model_name (attrs : Option Attrs) : Option String :=
  match attrs with
  | none => none
  | some a =>
    match lookupKey a SpanAttributes.LLM_MODEL_NAME with
    | some (.str s) => some s
    | _ => none

/-- Extraction of `gen_ai.system` from `llm.system` (string values only). -/
def extract_system (attrs : Option Attrs) : Option String :=
  match attrs with
  | none => none
  | some a =>
    match lookupKey a SpanAttributes.LLM_SYSTEM with
    | some (.str s) => some s
    | _ => none

/-- Token-usage dict built by `extract_token_usage`: the raw attribute values
of `llm.token_count.prompt` / `llm.token_count.completion` when present (the
source copies them without a type check). -/
structure TokenUsage where
  inputTokens : Option AttrValue := none
  outputTokens : Option AttrValue := none
deriving DecidableEq, Repr, Inhabited

/-- Extraction of `gen_ai.usage.*` from `llm.token_count.*`. -/
def extract_token_usage (attrs : Option Attrs) : TokenUsage :=
  match attrs with
  | none => {}
  | some a =>
    { inputTokens := lookupKey a SpanAttributes.LLM_TOKEN_COUNT_PROMPT
      outputTokens := lookupKey a SpanAttributes.LLM_TOKEN_COUNT_COMPLETION }

/-- Inner item probe of `_extract_response_id_from_langchain_output`: walks
`item["message"]["kwargs"]["response_metadata"]["id"]` with an
`isinstance(_, dict)` guard at every step and keeps only non-empty strings. -/
def extract_from_item (item : PyJson) : Option String :=
  match item.asObj? with
  | none => none
  | some kvs =>
    match (pyGet kvs "message").asObj? with
    | none => none
    | some mkvs =>
      match (pyGet mkvs "kwargs").asObj? with
      | none => none
      | some kkvs =>
        match (pyGet kkvs "response_metadata").asObj? with
        | none => none
        | some rkvs =>
          match pyGet rkvs "id" with
          | .str s => if s ≠ "" then some s else none
          | _ => none

/-- Inner loop of the `generations` search: first hit across one generation
list. -/
def searchGenList : List PyJson → Option String
  | [] => none
  | item :: rest =>
    match extract_from_item item with
    | some rid => some rid
    | none => searchGenList rest

/-- Outer loop of the `generations` search: each outer element that is a list
is scanned item by item, any other outer element is probed directly. -/
def searchGenerations : List PyJson → Option String
  | [] => none
  | outer :: rest =>
    match outer with
    | .arr inner =>
      match searchGenList inner with
      | some rid => some rid
      | none => searchGenerations rest
    | _ =>
      match extract_from_item outer with
      | some rid => some rid
      | none => searchGenerations rest

/-- Embedding of `_extract_response_id_from_langchain_output`: search the
`generations` structure of a LangChain `output.value` payload. -/
def _extract_response_id_from_langchain_output
    (payload : List (String × PyJson)) : Option String :=
  match pyGet payload "generations" with
  | .arr gens => searchGenerations gens
  | _ => none

/-- Body of `extract_response_id` after its early return: consult the
JSON-parsed `output.value` string — a non-empty top-level `id`, then the
LangChain `generations` shape; an absent/non-string/empty `output.value`,
malformed JSON, and non-dict payloads yield `none`. -/
def responseIdFromOutput (jl : String → Option PyJson) (a : Attrs) :
    Option String :=
  match lookupKey a SpanAttributes.OUTPUT_VALUE with
  | some (.str ov) =>
    if ov = "" then none
    else
      match jl ov with
      | none => none
      | some payload =>
        match payload.asObj? with
        | none => none
        | some kvs =>
          match pyGet kvs "id" with
          | .str rid =>
            if rid ≠ "" then some rid
            else _extract_response_id_from_langchain_output kvs
          | _ => _extract_response_id_from_langchain_output kvs
  | _ => none

/-- Embedding of `extract_response_id` (`jl` is the `json.loads` oracle): an
already-canonical non-empty `gen_ai.response.id` string wins, else the
`output.value` fallback chain of `responseIdFromOutput` is consulted. -/
def extract_response_id (jl : String → Option PyJson) (attrs : Option Attrs) :
    Option String :=
  match attrs with
  | none => none
  | some a =>
    match lookupKey a "gen_ai.response.id" with
    | some (.str s) => if s ≠ "" then some s else responseIdFromOutput jl a
    | _ => responseIdFromOutput jl a

/-- Result of matching the regex `llm\.tools\.(\d+)\.tool\.json_schema`
against a key (`re.match`, so a prefix match: trailing characters after the
suffix are allowed): the captured tool index. -/
def splitToolSchemaKey (key : String) : Option Nat :=
  match stripPre "llm.tools.".data key.data with
  | none => none
  | some rest =>
    let digits := rest.takeWhile Char.isDigit
    if digits.isEmpty then none
    else if clPrefix ".tool.json_schema".data (rest.drop digits.length) then
      some (digitsToNat digits)
    else none

/-- Distinct tool indices found in the key set, in ascending order (the
source collects them into a `set` and iterates `sorted(tool_indices)`). -/
def toolIndices (a : Attrs) : List Nat :=
  List.insertionSort (· ≤ ·) ((a.map Prod.fst).filterMap splitToolSchemaKey).dedup

/-- One tool definition in the standard format, the dict
`{"type": …, "name": …, "description": …, "parameters": …}` built by
`extract_tool_definitions` (missing fields are Python `None`, i.e. `null`). -/
structure ToolDef where
  type : PyJson
  name : PyJson
  description : PyJson
  parameters : PyJson
deriving Repr, Inhabited

/-- Serialization of a tool definition back to the dict the source builds. -/
def ToolDef.toJson (t : ToolDef) : PyJson :=
  .obj [("type", t.type), ("name", t.name), ("description", t.description),
        ("parameters", t.parameters)]

/-- Embedding of `extract_tool_definitions`: for each tool index with a
`llm.tools.<i>.tool.json_schema` key, parse the string value as JSON (a parse
failure is logged and skipped; a non-string value leaves the schema unset and
is skipped); unwrap a `{type: "function", function: {...}}` envelope; emit
the standard dict.  `schema.get(...)` on a JSON payload that is not an object
raises `AttributeError` (uncaught in the source, hence `Except`). -/
def extract_tool_definitions (jl : String → Option PyJson)
    (attrs : Option Attrs) : Except String (List ToolDef) :=
  match attrs with
  | none => .ok []
  | some a =>
    (toolIndices a).foldlM (fun tools idx =>
      let json_schema_key :=
        SpanAttributes.LLM_TOOLS ++ "." ++ toString idx ++ "." ++
          ToolAttributes.TOOL_JSON_SCHEMA
      match lookupKey a json_schema_key with
      | none => .ok tools
      | some schema_value =>
        match schema_value with
        | .str sv =>
          match jl sv with
          | none => .ok tools
          | some parsed =>
            match parsed.asObj? with
            | none => .error "AttributeError"
            | some kvs =>
              let kvs2 :=
                match pyGet kvs "type" with
                | .str "function" =>
                  match (pyGet kvs "function").asObj? with
                  | some fnKvs =>
                    [("type", PyJson.str "function"),
                     ("name", pyGet fnKvs "name"),
                     ("description", pyGet fnKvs "description"),
                     ("parameters", pyGet fnKvs "parameters")]
                  | none => kvs
                | _ => kvs
              .ok (tools ++
                [{ type := (lookupKey kvs2 "type").getD (.str "function")
                   name := pyGet kvs2 "name"
                   description := pyGet kvs2 "description"
                   parameters := pyGet kvs2 "parameters" }])
        | _ => .ok tools) []

/-- Per-tool-call accumulator (`msg["_tool_calls"][i]`). -/
structure RawTC where
  id : Option AttrValue := none
  name : Option AttrValue := none
  arguments : Option AttrValue := none
deriving DecidableEq, Repr, Inhabited

/-- Per-content-entry accumulator (`msg["_contents"][i]`). -/
structure RawContent where
  type : Option AttrValue := none
  text : Option AttrValue := none
deriving DecidableEq, Repr, Inhabited

/-- Per-message accumulator built by the grouping pass of
`_extract_messages` (the underscore-prefixed working fields of the source's
message dict). -/
structure RawMsg where
  role : Option AttrValue := none
  hasContent : Bool := false
  contentText : Option AttrValue := none
  toolCallId : Option AttrValue := none
  toolCalls : List (Nat × RawTC) := []
  contents : List (Nat × RawContent) := []
deriving DecidableEq, Repr, Inhabited

/-- Application of one matched attribute `…<idx>.message.<rest> = value` to a
message accumulator (the body of the grouping loop of `_extract_messages`).
A flat `content` is recorded only when truthy; `tool_calls.<n>.…` and
`contents.<n>.…` keys create their entry even when the trailing subfield is
unrecognized, exactly as the source's get-or-create does. -/
def applyMsgField (msg : RawMsg) (rest : String) (value : AttrValue) :
    RawMsg :=
  if rest = "role" then { msg with role := some value }
  else if rest = "content" then
    if value.truthy then
      { msg with hasContent := true, contentText := some value }
    else msg
  else if rest = "tool_call_id" then { msg with toolCallId := some value }
  else if strStartsWith rest "tool_calls." then
    match splitToolCallKey rest with
    | none => msg
    | some (tcIdx, tcAttr) =>
      if tcAttr = "id" then
        { msg with toolCalls :=
            updAssoc msg.toolCalls tcIdx {} (fun tc => { tc with id := some value }) }
      else if tcAttr = "function.name" then
        { msg with toolCalls :=
            updAssoc msg.toolCalls tcIdx {} (fun tc => { tc with name := some value }) }
      else if tcAttr = "function.arguments" then
        { msg with toolCalls :=
            updAssoc msg.toolCalls tcIdx {} (fun tc => { tc with arguments := some value }) }
      else
        { msg with toolCalls := updAssoc msg.toolCalls tcIdx {} id }
  else if strStartsWith rest "contents." then
    match splitContentKey rest with
    | none => msg
    | some (cIdx, cAttr) =>
      if cAttr = "type" then
        { msg with contents :=
            updAssoc msg.contents cIdx {} (fun c => { c with type := some value }) }
      else if cAttr = "text" then
        { msg with contents :=
            updAssoc msg.contents cIdx {} (fun c => { c with text := some value }) }
      else
        { msg with contents := updAssoc msg.contents cIdx {} id }
  else msg

/-- One iteration of the grouping loop of `_extract_messages`: skip keys
that do not match `{pre}.<idx>.message.<rest>`, group the rest by index
(creating the accumulator on first sight), and apply the field. -/
def groupStep (pre : String) (msgs : List (Nat × RawMsg))
    (kv : String × AttrValue) : List (Nat × RawMsg) :=
  match splitMsgKey pre kv.1 with
  | none => msgs
  | some (idx, rest) =>
    updAssoc msgs idx {} (fun m => applyMsgField m rest kv.2)

/-- Grouping pass of `_extract_messages`: iterate the attribute map in
insertion order. -/
def groupMessages (a : Attrs) (pre : String) : List (Nat × RawMsg) :=
  a.foldl (groupStep pre) []

/-- Message part in the final format: the tagged dicts
`{"type": "text", …}` / `{"type": "tool_call", …}` /
`{"type": "tool_call_response", …}` the source appends to `parts`. -/
inductive Part where
  | text (content : PyJson)
  | tool_call (id name arguments : PyJson)
  | tool_call_response (id response : PyJson)
deriving Repr, Inhabited

/-- Tag check `p.get("type") == "text"` on a final part. -/
def Part.isText : Part → Bool
  | .text _ => true
  | _ => false

/-- Serialization of a part back to the dict the source builds (same key
order). -/
def Part.toJson : Part → PyJson
  | .text c => .obj [("type", .str "text"), ("content", c)]
  | .tool_call i n a =>
    .obj [("type", .str "tool_call"), ("id", i), ("name", n), ("arguments", a)]
  | .tool_call_response i r =>
    .obj [("type", .str "tool_call_response"), ("id", i), ("response", r)]

/-- Final message dict `{"role": …, "parts": …}`; `finishReasonNull` records
that `extract_output_messages` stamped an explicit `"finish_reason": None`. -/
structure Message where
  role : AttrValue
  parts : List Part
  finishReasonNull : Bool := false
deriving Repr, Inhabited

/-- Serialization of a message back to the dict the source builds. -/
def Message.toJson (m : Message) : PyJson :=
  .obj ([("role", m.role.toJson), ("parts", .arr (m.parts.map Part.toJson))] ++
    (if m.finishReasonNull then [("finish_reason", PyJson.null)] else []))

/-- Conversion pass of `_extract_messages` for one grouped message: the
tool-response branch when `role == "tool"` and a `tool_call_id` was captured
(where `json.loads` on a truthy non-string content raises an uncaught
`TypeError`), else text parts from the `contents` array in ascending index
order, then the flat content if no text part was produced yet, then tool
calls in ascending index order. -/
def finalizeMsg (jl : String → Option PyJson) (msg : RawMsg) :
    Except String Message :=
  let role := msg.role.getD (.str "assistant")
  match decide (role = .str "tool"), msg.toolCallId with
  | true, some tcid =>
    let content := msg.contentText.getD (.str "")
    match content.truthy, content with
    | true, .str s =>
      .ok { role := role
            parts := [.tool_call_response tcid.toJson
              (match jl s with
               | some j => j
               | none => .str s)] }
    | true, _ => .error "TypeError"
    | false, _ =>
      .ok { role := role, parts := [.tool_call_response tcid.toJson .null] }
  | _, _ =>
    let parts1 := (sortedKeys msg.contents).foldl (fun acc cIdx =>
      let c := getAssoc msg.contents cIdx
      if c.type = some (.str "text") then
        acc ++ [Part.text ((c.text.getD (.str "")).toJson)]
      else acc) []
    let parts2 :=
      if msg.hasContent ∧ (msg.contentText.getD (.str "")).truthy then
        if ¬ parts1.any Part.isText then
          parts1 ++ [Part.text ((msg.contentText.getD (.str "")).toJson)]
        else parts1
      else parts1
    let parts3 := (sortedKeys msg.toolCalls).foldl (fun acc tcIdx =>
      let tc := getAssoc msg.toolCalls tcIdx
      acc ++ [Part.tool_call ((tc.id.map AttrValue.toJson).getD .null)
        ((tc.name.map AttrValue.toJson).getD .null)
        ((tc.arguments.map AttrValue.toJson).getD .null)]) parts2
    .ok { role := role, parts := parts3 }

/-- Embedding of `_extract_messages`: group, then convert per index in
ascending order (a `TypeError` in one message aborts the whole loop, as the
uncaught Python exception does). -/
def _extract_messages (jl : String → Option PyJson) (attrs : Option Attrs)
    (pre : String) : Except String (List Message) :=
  match attrs with
  | none => .ok []
  | some a =>
    let msgs := groupMessages a pre
    (sortedKeys msgs).mapM (fun idx => finalizeMsg jl (getAssoc msgs idx))

/-- Embedding of `extract_system_instructions`: empty when the first input
message already has the system role; otherwise read an `instructions` field
out of the JSON-parsed `input.value` string.  A parse failure is swallowed,
but `parsed.get` on a payload that is not an object raises an uncaught
`AttributeError`. -/
def extract_system_instructions (jl : String → Option PyJson)
    (attrs : Option Attrs) : Except String (List Part) :=
  match attrs with
  | none => .ok []
  | some a =>
    if lookupKey a (SpanAttributes.LLM_INPUT_MESSAGES ++ ".0.message.role")
        = some (.str "system") then .ok []
    else
      match lookupKey a SpanAttributes.INPUT_VALUE with
      | some (.str iv) =>
        if iv = "" then .ok []
        else
          match jl iv with
          | none => .ok []
          | some parsed =>
            match parsed.asObj? with
            | none => .error "AttributeError"
            | some kvs =>
              let instructions := pyGet kvs "instructions"
              if instructions.truthy then .ok [.text instructions]
              else .ok []
      | _ => .ok []

/-- Embedding of `extract_input_messages`: system instructions first (the
source's evaluation order), then the input messages. -/
def extract_input_messages (jl : String → Option PyJson)
    (attrs : Option Attrs) : Except String (List Message × List Part) := do
  let system_instructions ← extract_system_instructions jl attrs
  let input_messages ← _extract_messages jl attrs SpanAttributes.LLM_INPUT_MESSAGES
  return (input_messages, system_instructions)

/-- Embedding of `extract_output_messages`: output messages additionally get
an explicit `finish_reason = None` (the grouping pass never sets one, so the
source's presence check is always taken). -/
def extract_output_messages (jl : String → Option PyJson)
    (attrs : Option Attrs) : Except String (List Message) := do
  let messages ← _extract_messages jl attrs SpanAttributes.LLM_OUTPUT_MESSAGES
  return messages.map (fun m => { m with finishReasonNull := true })

/-!
Embedding of `introspection_sdk/types.py` (`GenAiAttributes`), a pydantic
model whose fields are populated by alias and serialized with
`model_dump(by_alias=True)`, omitting `None` fields.
-/

/-- Canonical GenAI semantic-convention attribute record (fields in
declaration order, each with its OTel alias). -/
structure GenAiAttributes where
  request_model : Option String := none
  system : Option String := none
  tool_definitions : Option String := none
  input_messages : Option String := none
  output_messages : Option String := none
  system_instructions : Option String := none
  response_id : Option String := none
  input_tokens : Option Int := none
  output_tokens : Option Int := none
deriving DecidableEq, Repr, Inhabited

/-- Singleton or empty entry list for one optional field of the dump. -/
def optEntry (k : String) (v : Option AttrValue) : List (String × AttrValue) :=
  match v with
  | none => []
  | some w => [(k, w)]

/-- Embedding of `GenAiAttributes.to_attributes`: the alias-keyed dict of the
model dump with `None` values excluded, in field declaration order. -/
def GenAiAttributes.to_attributes (g : GenAiAttributes) :
    List (String × AttrValue) :=
  optEntry "gen_ai.request.model" (g.request_model.map .str) ++
  optEntry "gen_ai.system" (g.system.map .str) ++
  optEntry "gen_ai.tool.definitions" (g.tool_definitions.map .str) ++
  optEntry "gen_ai.input.messages" (g.input_messages.map .str) ++
  optEntry "gen_ai.output.messages" (g.output_messages.map .str) ++
  optEntry "gen_ai.system_instructions" (g.system_instructions.map .str) ++
  optEntry "gen_ai.response.id" (g.response_id.map .str) ++
  optEntry "gen_ai.usage.input_tokens" (g.input_tokens.map .int) ++
  optEntry "gen_ai.usage.output_tokens" (g.output_tokens.map .int)

/-- Pydantic validation of a `str | None` field value (lax mode accepts only
actual strings; a missing key defaults to `None`). -/
def validateStr (v : Option AttrValue) : Except String (Option String) :=
  match v with
  | none => .ok none
  | some (.str s) => .ok (some s)
  | some _ => .error "ValidationError"

/-- Pydantic validation of an `int | None` field value.  Lax mode coerces a
decimal string; booleans and other strings are rejected.  (Pydantic's exact
string-trimming rules are not modelled; only the integer case is exercised
by the theorems below.) -/
def validateInt (v : Option AttrValue) : Except String (Option Int) :=
  match v with
  | none => .ok none
  | some (.int n) => .ok (some n)
  | some (.str s) =>
    match s.toInt? with
    | some n => .ok (some n)
    | none => .error "ValidationError"
  | some (.bool _) => .error "ValidationError"

/-- Construction of a `GenAiAttributes` from an alias-keyed attribute map,
as pydantic `populate_by_name` validation does: look up each alias, validate
the value, default missing keys to `None`. -/
def GenAiAttributes.from_attributes (m : List (String × AttrValue)) :
    Except String GenAiAttributes := do
  let request_model ← validateStr (lookupKey m "gen_ai.request.model")
  let system ← validateStr (lookupKey m "gen_ai.system")
  let tool_definitions ← validateStr (lookupKey m "gen_ai.tool.definitions")
  let input_messages ← validateStr (lookupKey m "gen_ai.input.messages")
  let output_messages ← validateStr (lookupKey m "gen_ai.output.messages")
  let system_instructions ← validateStr (lookupKey m "gen_ai.system_instructions")
  let response_id ← validateStr (lookupKey m "gen_ai.response.id")
  let input_tokens ← validateInt (lookupKey m "gen_ai.usage.input_tokens")
  let output_tokens ← validateInt (lookupKey m "gen_ai.usage.output_tokens")
  return { request_model, system, tool_definitions, input_messages,
           output_messages, system_instructions, response_id, input_tokens,
           output_tokens }

/-- Embedding of `convert_openinference_to_genai` (`jl` / `jd` are the
`json.loads` / `json.dumps` oracles): run the extractors in source order,
serialize non-empty lists, and validate the pydantic constructor arguments
(token counts are copied from the attributes unchecked, so the constructor
itself can raise).  Any uncaught exception of an extractor propagates. -/
def convert_openinference_to_genai (jl : String → Option PyJson)
    (jd : PyJson → String) (attrs : Option Attrs) :
    Except String GenAiAttributes := do
  let model_name := extract_model_name attrs
  let system := extract_system attrs
  let response_id := extract_response_id jl attrs
  let tool_definitions ← extract_tool_definitions jl attrs
  let im ← extract_input_messages jl attrs
  let output_messages ← extract_output_messages jl attrs
  let token_usage := extract_token_usage attrs
  let input_tokens ← validateInt token_usage.inputTokens
  let output_tokens ← validateInt token_usage.outputTokens
  return { request_model := model_name
           system := system
           tool_definitions :=
             if tool_definitions.isEmpty then none
             else some (jd (.arr (tool_definitions.map ToolDef.toJson)))
           input_messages :=
             if im.1.isEmpty then none
             else some (jd (.arr (im.1.map Message.toJson)))
           output_messages :=
             if output_messages.isEmpty then none
             else some (jd (.arr (output_messages.map Message.toJson)))
           system_instructions :=
             if im.2.isEmpty then none
             else some (jd (.arr (im.2.map Part.toJson)))
           response_id := response_id
           input_tokens := input_tokens
           output_tokens := output_tokens }

/-- Embedding of `is_openinference_span`: a falsy scope name (absent or
empty) is not OpenInference; otherwise test the `"openinference"` prefix. -/
def is_openinference_span (scope_name : Option String) : Bool :=
  match scope_name with
  | none => false
  | some s => if s = "" then false else strStartsWith s "openinference"

/-!
Embedding of the finished-span surface consumed by
`introspection_sdk/span_processor.py` and the `ConvertedReadableSpan`
wrapper.  Span metadata other than attributes is opaque to this code, so
contexts, statuses, events and links are modelled as abstract tokens.
-/

/-- Finished span as read by the processor: the sampled flag of the trace
flags, the instrumentation-scope name (absent when the span has no scope),
the attribute dict, and the delegated metadata. -/
structure ReadableSpan where
  name : String
  context : Nat
  parent : Option Nat
  startTime : Nat
  endTime : Option Nat
  statusCode : Nat
  events : List Nat
  links : List Nat
  attributes : Attrs
  sampled : Bool
  scopeName : Option String
deriving Repr, Inhabited

/-- Wrapper pairing the original finished span with converted attributes
(`ConvertedReadableSpan.__init__`). -/
structure ConvertedReadableSpan where
  original : ReadableSpan
  converted_attrs : GenAiAttributes
deriving Repr

/-- Reserved vendor prefixes stripped by the wrapper:
`key.startswith(("llm.", "input.", "output."))`. -/
def isVendorKey (k : String) : Bool :=
  strStartsWith k "llm." || strStartsWith k "input." || strStartsWith k "output."

/-- Embedding of the `ConvertedReadableSpan.attributes` property: copy the
original attributes whose key has no reserved vendor prefix (in insertion
order), then `dict.update` with the converted canonical attributes. -/
def ConvertedReadableSpan.attributes (s : ConvertedReadableSpan) : Attrs :=
  updateDict (s.original.attributes.filter (fun p => !isVendorKey p.1))
    s.converted_attrs.to_attributes

/-- Delegated span name. -/
def ConvertedReadableSpan.name (s : ConvertedReadableSpan) : String :=
  s.original.name

/-- Delegated span context. -/
def ConvertedReadableSpan.context (s : ConvertedReadableSpan) : Nat :=
  s.original.context

/-- Delegated parent context. -/
def ConvertedReadableSpan.parent (s : ConvertedReadableSpan) : Option Nat :=
  s.original.parent

/-- Delegated start time. -/
def ConvertedReadableSpan.start_time (s : ConvertedReadableSpan) : Nat :=
  s.original.startTime

/-- Delegated end time. -/
def ConvertedReadableSpan.end_time (s : ConvertedReadableSpan) : Option Nat :=
  s.original.endTime

/-- Delegated status. -/
def ConvertedReadableSpan.status (s : ConvertedReadableSpan) : Nat :=
  s.original.statusCode

/-- Delegated events. -/
def ConvertedReadableSpan.events (s : ConvertedReadableSpan) : List Nat :=
  s.original.events

/-- Delegated links. -/
def ConvertedReadableSpan.links (s : ConvertedReadableSpan) : List Nat :=
  s.original.links

/-- Span value forwarded to the downstream batch processor by
`IntrospectionSpanProcessor.on_end`: either the original span unchanged or
the converting wrapper. -/
inductive Forwarded where
  | original (s : ReadableSpan)
  | converted (s : ConvertedReadableSpan)
deriving Repr

/-- Embedding of `IntrospectionSpanProcessor.on_end`, returning the list of
`on_end` calls made on the downstream batch processor: an unsampled span is
dropped before anything is computed; an OpenInference span is converted and
wrapped (a conversion exception would propagate); any other span is
forwarded unchanged. -/
def IntrospectionSpanProcessor.on_end (jl : String → Option PyJson)
    (jd : PyJson → String) (span : ReadableSpan) :
    Except String (List Forwarded) :=
  if ¬ span.sampled then .ok []
  else if is_openinference_span span.scopeName then
    match convert_openinference_to_genai jl jd (some span.attributes) with
    | .ok g => .ok [.converted ⟨span, g⟩]
    | .error e => .error e
  else .ok [.original span]

/-!
Embedding of `introspection_sdk/converters/openai.py`.  The inputs are lists
of dicts (the functions' declared parameter types); `pstr` is the Python
`str()` oracle used for non-dict content items.
-/

/-- Text part dict `{"type": "text", "content": …}`. -/
def textPartJ (c : PyJson) : PyJson :=
  .obj [("type", .str "text"), ("content", c)]

/-- Content-to-parts conversion shared by both Responses converters: a plain
string becomes one text part; a list maps `output_text` dicts to text parts,
passes other dicts through unchanged, and stringifies anything else. -/
def responsesContentParts (pstr : PyJson → String) (content : PyJson) :
    List PyJson :=
  match content with
  | .str s => [textPartJ (.str s)]
  | .arr items =>
    items.map (fun item =>
      match item.asObj? with
      | some ikvs =>
        match pyGet ikvs "type" with
        | .str "output_text" =>
          textPartJ ((lookupKey ikvs "text").getD (.str ""))
        | _ => item
      | none => textPartJ (.str (pstr item)))
  | _ => []

/-- Embedding of `convert_responses_inputs_to_semconv`: returns the pair of
(input messages, system instructions) in semconv format. -/
def convert_responses_inputs_to_semconv (pstr : PyJson → String)
    (inputs : Option (List (List (String × PyJson))))
    (instructions : Option String) : List PyJson × List PyJson :=
  let system_instructions :=
    match instructions with
    | some instr => if instr ≠ "" then [textPartJ (.str instr)] else []
    | none => []
  let input_messages :=
    match inputs with
    | none => []
    | some l =>
      l.foldl (fun msgs inp =>
        let role := (lookupKey inp "role").getD (.str "user")
        let typ := pyGet inp "type"
        let content := pyGet inp "content"
        let typIsMessage :=
          match typ with
          | .null => true
          | .str s => decide (s = "message")
          | _ => false
        if typIsMessage && content.truthy then
          msgs ++ [.obj [("role", role),
                         ("parts", .arr (responsesContentParts pstr content))]]
        else
          match typ with
          | .str "function_call" =>
            msgs ++ [.obj [("role", .str "assistant"),
              ("parts", .arr [.obj [("type", .str "tool_call"),
                ("id", pyGet inp "call_id"), ("name", pyGet inp "name"),
                ("arguments", pyGet inp "arguments")]])]]
          | .str "function_call_output" =>
            let base : List (String × PyJson) :=
              [("role", .str "tool"),
               ("parts", .arr [.obj [("type", .str "tool_call_response"),
                 ("id", pyGet inp "call_id"), ("response", pyGet inp "output")]])]
            match lookupKey inp "name" with
            | some nm => msgs ++ [.obj (base ++ [("name", nm)])]
            | none => msgs ++ [.obj base]
          | _ => msgs) []
  (input_messages, system_instructions)

/-- Embedding of `convert_responses_outputs_to_semconv`. -/
def convert_responses_outputs_to_semconv (pstr : PyJson → String)
    (outputs : List (List (String × PyJson))) : List PyJson :=
  outputs.foldl (fun msgs out =>
    let typ := pyGet out "type"
    let content := pyGet out "content"
    let typIsMessage :=
      match typ with
      | .null => true
      | .str s => decide (s = "message")
      | _ => false
    if typIsMessage && content.truthy then
      msgs ++ [.obj [("role", .str "assistant"),
                     ("parts", .arr (responsesContentParts pstr content))]]
    else
      match typ with
      | .str "function_call" =>
        msgs ++ [.obj [("role", .str "assistant"),
          ("parts", .arr [.obj [("type", .str "tool_call"),
            ("id", pyGet out "call_id"), ("name", pyGet out "name"),
            ("arguments", pyGet out "arguments")]])]]
      | _ => msgs) []

/-!
Embedding of `introspection_sdk/tracing_processor.py`
(`IntrospectionTracingProcessor`), the bridge from the OpenAI agents tracing
protocol onto OTel spans.  The tracer's span handles are modelled as records
indexed by a fresh context id; the pluggable deterministic
`ns_timestamp_generator` is modelled as a function of the number of calls
made so far.
-/

/-- Usage object of an OpenAI `Response`. -/
structure RespUsage where
  input_tokens : Nat
  output_tokens : Nat
deriving DecidableEq, Repr, Inhabited

/-- Tool carried by an OpenAI `Response` (`isinstance(tool, FunctionTool)`
distinguishes function tools from the built-in kinds, for which only the
type tag is used). -/
inductive RespTool where
  | functionTool (name : String) (description : Option String)
      (parameters : Option PyJson)
  | otherTool (toolType : String)
deriving Repr, Inhabited

/-- The nested `response` object of a `ResponseSpanData` payload; `output`
items are their `model_dump()` dicts. -/
structure ResponseObj where
  instructions : Option String := none
  tools : Option (List RespTool) := none
  usage : Option RespUsage := none
  model : Option String := none
  id : Option String := none
  output : Option (List (List (String × PyJson))) := none
deriving Repr, Inhabited

/-- Tagged span payload of the agents tracing protocol (the five recognized
kinds).  `function`'s output is stored after `str()`, so it is modelled as
the resulting string. -/
inductive SpanData where
  | agent (name : String) (tools : Option (List String))
      (handoffs : Option (List String)) (output_type : Option String)
  | function (name : String) (input : Option String) (output : Option String)
  | response (resp : Option ResponseObj)
      (input : Option (List (List (String × PyJson))))
  | generation (model : Option String)
      (usage : Option (List (String × PyJson)))
      (input : Option (List PyJson)) (output : Option (List PyJson))
  | handoff (from_agent : Option String) (to_agent : Option String)
deriving Repr, Inhabited

/-- The payload's `type` tag. -/
def SpanData.typeTag : SpanData → String
  | .agent .. => "agent"
  | .function .. => "function"
  | .response .. => "response"
  | .generation .. => "generation"
  | .handoff .. => "handoff"

/-- One span of the agents tracing protocol. -/
structure AgentSpan where
  trace_id : String
  span_id : String
  parent_id : Option String
  span_data : SpanData
deriving Repr, Inhabited

/-- One trace of the agents tracing protocol. -/
structure TraceObj where
  name : String
  trace_id : String
deriving DecidableEq, Repr, Inhabited

/-- OTel span handle created by the bridge's tracer: its context is a fresh
token, its parent the context of the span it was started under. -/
structure OtelSpanRec where
  name : String
  ctx : Nat
  parent : Option Nat
  attrs : List (String × PyJson)
  startTime : Nat
  endTime : Option Nat
deriving Repr, Inhabited

/-- Bridge state: the timestamp-generator call count, the next fresh context
id, the `self._spans` dict keyed by the protocol's ids, and every span
handle the tracer has created. -/
structure BridgeState where
  tsCount : Nat := 0
  nextCtx : Nat := 0
  spans : List (String × Nat) := []
  allSpans : List OtelSpanRec := []
deriving Repr, Inhabited

/-- Oracles for the Python built-ins the bridge calls. -/
structure BridgeOracles where
  jd : PyJson → String
  pstr : PyJson → String
  dumpSpanData : SpanData → String

/-- One call to the deterministic `ns_timestamp_generator`. -/
def tick (tsGen : Nat → Nat) (st : BridgeState) : Nat × BridgeState :=
  (tsGen st.tsCount, { st with tsCount := st.tsCount + 1 })

/-- Tracer `start_span`: create a fresh handle under the given parent
context. -/
def startSpan (st : BridgeState) (name : String) (parentCtx : Option Nat)
    (startTime : Nat) : Nat × BridgeState :=
  (st.nextCtx,
   { st with
     nextCtx := st.nextCtx + 1
     allSpans := st.allSpans ++
       [{ name, ctx := st.nextCtx, parent := parentCtx, attrs := [],
          startTime, endTime := none }] })

/-- Span `set_attribute` on the handle with context `i`. -/
def setSpanAttr (st : BridgeState) (i : Nat) (k : String) (v : PyJson) :
    BridgeState :=
  { st with allSpans := st.allSpans.map (fun r =>
      if r.ctx = i then { r with attrs := setAssoc r.attrs k v } else r) }

/-- Span `end(end_time=…)` on the handle with context `i`. -/
def endSpanRec (st : BridgeState) (i : Nat) (t : Nat) : BridgeState :=
  { st with allSpans := st.allSpans.map (fun r =>
      if r.ctx = i then { r with endTime := some t } else r) }

/-- Embedding of `on_trace_start`: start a root span named after the trace
and store its handle under the trace id. -/
def on_trace_start (tsGen : Nat → Nat) (st : BridgeState)
    (trace : Option TraceObj) : BridgeState :=
  match trace with
  | none => st
  | some t =>
    let (ts, st1) := tick tsGen st
    let (ctx, st2) := startSpan st1 t.name none ts
    { st2 with spans := setAssoc st2.spans t.trace_id ctx }

/-- Embedding of `on_trace_end`: pop the handle for the trace id and end it;
an untracked id is a no-op. -/
def on_trace_end (tsGen : Nat → Nat) (st : BridgeState)
    (trace : Option TraceObj) : BridgeState :=
  match trace with
  | none => st
  | some t =>
    let found := lookupKey st.spans t.trace_id
    let st1 := { st with spans := st.spans.filter (fun p => ¬ p.1 = t.trace_id) }
    match found with
    | none => st1
    | some i =>
      let (ts, st2) := tick tsGen st1
      endSpanRec st2 i ts

/-- Embedding of `on_span_start`: resolve the parent handle by `parent_id`
falling back to `trace_id` (Python `or`, so an empty `parent_id` also falls
back), name the span after the payload (agent/function name, else the kind
tag), start it under the parent context when found, and store the handle
under the span id. -/
def on_span_start (tsGen : Nat → Nat) (st : BridgeState)
    (span : Option AgentSpan) : BridgeState :=
  match span with
  | none => st
  | some sp =>
    let parent_id :=
      match sp.parent_id with
      | some p => if p = "" then sp.trace_id else p
      | none => sp.trace_id
    let parentCtx := lookupKey st.spans parent_id
    let name :=
      match sp.span_data with
      | .agent n _ _ _ => n
      | .function n _ _ => n
      | d => d.typeTag
    let (ts, st1) := tick tsGen st
    let (ctx, st2) := startSpan st1 name parentCtx ts
    { st2 with spans := setAssoc st2.spans sp.span_id ctx }

/-- Embedding of `_process_agent_span`: always the agent name; tool names,
handoffs and output type only when truthy. -/
def _process_agent_span (o : BridgeOracles) (st : BridgeState) (i : Nat)
    (name : String) (tools handoffs : Option (List String))
    (output_type : Option String) : BridgeState :=
  let st1 := setSpanAttr st i "gen_ai.agent.name" (.str name)
  let st2 :=
    match tools with
    | some ts =>
      if ts.isEmpty then st1
      else setSpanAttr st1 i "gen_ai.tool.definitions"
        (.str (o.jd (.arr (ts.map PyJson.str))))
    | none => st1
  let st3 :=
    match handoffs with
    | some hs =>
      if hs.isEmpty then st2
      else setSpanAttr st2 i "gen_ai.agent.handoffs"
        (.str (o.jd (.arr (hs.map PyJson.str))))
    | none => st2
  match output_type with
  | some ot => if ot = "" then st3 else setSpanAttr st3 i "gen_ai.agent.output_type" (.str ot)
  | none => st3

/-- Embedding of `_process_function_span`. -/
def _process_function_span (st : BridgeState) (i : Nat) (name : String)
    (input output : Option String) : BridgeState :=
  let st1 := setSpanAttr st i "gen_ai.tool.name" (.str name)
  let st2 :=
    match input with
    | some s => if s = "" then st1 else setSpanAttr st1 i "gen_ai.tool.input" (.str s)
    | none => st1
  match output with
  | some s => if s = "" then st2 else setSpanAttr st2 i "gen_ai.tool.output" (.str s)
  | none => st2

/-- Embedding of `_process_response_span`: nothing without a response
object; otherwise system instructions, per-tool definitions, non-zero token
counts, model, response id, and the converted input/output message lists. -/
def _process_response_span (o : BridgeOracles) (st : BridgeState) (i : Nat)
    (resp : Option ResponseObj)
    (input : Option (List (List (String × PyJson)))) : BridgeState :=
  match resp with
  | none => st
  | some r =>
    let st1 :=
      match r.instructions with
      | some instr =>
        if instr = "" then st
        else setSpanAttr st i "gen_ai.system_instructions"
          (.str (o.jd (.arr [textPartJ (.str instr)])))
      | none => st
    let st2 :=
      match r.tools with
      | some ts =>
        if ts.isEmpty then st1
        else
          let tool_defs := ts.map (fun t =>
            match t with
            | .functionTool n d p =>
              PyJson.obj ([("name", .str n)] ++
                (match d with
                 | some ds => if ds = "" then [] else [("description", PyJson.str ds)]
                 | none => []) ++
                (match p with
                 | some ps => if ps.truthy then [("parameters", ps)] else []
                 | none => []))
            | .otherTool ty => PyJson.obj [("name", .str ty)])
          setSpanAttr st1 i "gen_ai.tool.definitions" (.str (o.jd (.arr tool_defs)))
      | none => st1
    let st3 :=
      match r.usage with
      | some u =>
        let a := if u.input_tokens ≠ 0 then
            setSpanAttr st2 i "gen_ai.usage.input_tokens" (.num u.input_tokens)
          else st2
        if u.output_tokens ≠ 0 then
          setSpanAttr a i "gen_ai.usage.output_tokens" (.num u.output_tokens)
        else a
      | none => st2
    let st4 :=
      match r.model with
      | some m => if m = "" then st3 else setSpanAttr st3 i "gen_ai.request.model" (.str m)
      | none => st3
    let st5 :=
      match r.id with
      | some rid => if rid = "" then st4 else setSpanAttr st4 i "gen_ai.response.id" (.str rid)
      | none => st4
    let st6 :=
      match input with
      | some l =>
        if l.isEmpty then st5
        else
          let ims := (convert_responses_inputs_to_semconv o.pstr (some l) none).1
          if ims.isEmpty then st5
          else setSpanAttr st5 i "gen_ai.input.messages" (.str (o.jd (.arr ims)))
      | none => st5
    match r.output with
    | some l =>
      if l.isEmpty then st6
      else
        let oms := convert_responses_outputs_to_semconv o.pstr l
        if oms.isEmpty then st6
        else setSpanAttr st6 i "gen_ai.output.messages" (.str (o.jd (.arr oms)))
    | none => st6

/-- Embedding of `_process_generation_span`. -/
def _process_generation_span (o : BridgeOracles) (st : BridgeState) (i : Nat)
    (model : Option String) (usage : Option (List (String × PyJson)))
    (input output : Option (List PyJson)) : BridgeState :=
  let st1 :=
    match model with
    | some m => if m = "" then st else setSpanAttr st i "gen_ai.request.model" (.str m)
    | none => st
  let st2 :=
    match usage with
    | some u =>
      if u.isEmpty then st1
      else
        let a := match lookupKey u "input_tokens" with
          | some v => setSpanAttr st1 i "gen_ai.usage.input_tokens" v
          | none => st1
        match lookupKey u "output_tokens" with
        | some v => setSpanAttr a i "gen_ai.usage.output_tokens" v
        | none => a
    | none => st1
  let st3 :=
    match input with
    | some l =>
      if l.isEmpty then st2
      else setSpanAttr st2 i "gen_ai.input.messages" (.str (o.jd (.arr l)))
    | none => st2
  match output with
  | some l =>
    if l.isEmpty then st3
    else setSpanAttr st3 i "gen_ai.output.messages" (.str (o.jd (.arr l)))
  | none => st3

/-- Embedding of `_process_handoff_span`. -/
def _process_handoff_span (st : BridgeState) (i : Nat)
    (from_agent to_agent : Option String) : BridgeState :=
  let st1 :=
    match from_agent with
    | some f => if f = "" then st else setSpanAttr st i "gen_ai.handoff.from_agent" (.str f)
    | none => st
  match to_agent with
  | some t => if t = "" then st1 else setSpanAttr st1 i "gen_ai.handoff.to_agent" (.str t)
  | none => st1

/-- Dispatch of `on_span_end` on the payload's type tag. -/
def processSpanData (o : BridgeOracles) (st : BridgeState) (i : Nat) :
    SpanData → BridgeState
  | .agent n t h ot => _process_agent_span o st i n t h ot
  | .function n inp out => _process_function_span st i n inp out
  | .response r inp => _process_response_span o st i r inp
  | .generation m u inp out => _process_generation_span o st i m u inp out
  | .handoff f t => _process_handoff_span st i f t

/-- Embedding of `on_span_end`: pop the handle for the span id; when found,
extract the per-kind attributes, stamp the raw payload debug attribute, and
end the handle. -/
def on_span_end (o : BridgeOracles) (tsGen : Nat → Nat) (st : BridgeState)
    (span : Option AgentSpan) : BridgeState :=
  match span with
  | none => st
  | some sp =>
    let found := lookupKey st.spans sp.span_id
    let st1 := { st with spans := st.spans.filter (fun p => ¬ p.1 = sp.span_id) }
    match found with
    | none => st1
    | some i =>
      let st2 := processSpanData o st1 i sp.span_data
      let st3 := setSpanAttr st2 i "openai_agents.span_data"
        (.str (o.dumpSpanData sp.span_data))
      let (ts, st4) := tick tsGen st3
      endSpanRec st4 i ts

/-!
Concrete oracles used by witnesses and counterexamples: a finite table
standing in for `json.loads` on the strings the examples use (with the
values the real parser returns on them), and constant serializers.
-/

/-- Witness `json.loads` oracle (`"5"` parses to the number 5, `"{}"` to the
empty object, `"[1]"` to a one-element array, `"{\x7bbad"` fails). -/
def jlFix : String → Option PyJson
  | "5" => some (.num 5)
  | "{}" => some (.obj [])
  | "[1]" => some (.arr [.num 1])
  | "\x7b\"id\": \"resp_1\"\x7d" => some (.obj [("id", .str "resp_1")])
  | _ => none

/-- Witness `json.dumps` oracle. -/
def jdFix : PyJson → String := fun _ => "<json>"

/-- Witness `str()` oracle. -/
def pstrFix : PyJson → String := fun _ => "<str>"

/-- Witness span-data dump oracle. -/
def dumpSpanDataFix : SpanData → String := fun _ => "<span_data>"

/-- Text parts contributed by the `contents` array of a grouped message:
one per entry whose `type` is `"text"`, in ascending index order. -/
def contentsTextParts (msg : RawMsg) : List Part :=
  (sortedKeys msg.contents).filterMap (fun cIdx =>
    let c := getAssoc msg.contents cIdx
    if c.type = some (.str "text") then
      some (.text ((c.text.getD (.str "")).toJson))
    else none)

/-- The at-most-one text part contributed by the flat `content` field: only
when the field was recorded (hence truthy) and the `contents` array produced
no text part. -/
def flatContentParts (msg : RawMsg) : List Part :=
  if msg.hasContent ∧ (msg.contentText.getD (.str "")).truthy
      ∧ ¬ (contentsTextParts msg).any Part.isText then
    [.text ((msg.contentText.getD (.str "")).toJson)]
  else []

/-- Tool-call parts of a grouped message, one per `tool_calls.<n>` group in
ascending index order. -/
def toolCallParts (msg : RawMsg) : List Part :=
  (sortedKeys msg.toolCalls).map (fun tcIdx =>
    let tc := getAssoc msg.toolCalls tcIdx
    .tool_call ((tc.id.map AttrValue.toJson).getD .null)
      ((tc.name.map AttrValue.toJson).getD .null)
      ((tc.arguments.map AttrValue.toJson).getD .null))

/-- Concrete grouped message exercising all three part sections. -/
def msgW : RawMsg :=
  { role := some (.str "user")
    hasContent := true
    contentText := some (.str "flat")
    toolCallId := none
    toolCalls := [(0, { id := some (.str "c1"), name := some (.str "f"),
                        arguments := some (.str "{}") })]
    contents := [(1, { type := some (.str "image"), text := some (.str "i") }),
                 (0, { type := some (.str "text"), text := some (.str "hello") })] }

/-- The same grouped message with every non-text `contents` entry deleted. -/
def filterTextContents (msg : RawMsg) : RawMsg :=
  { msg with
    contents := msg.contents.filter (fun p => p.2.type = some (.str "text")) }

/-- Concrete grouped message with a text entry between an image entry and an
audio entry. -/
def msgW10 : RawMsg :=
  { role := some (.str "user")
    contents := [(0, { type := some (.str "image"), text := some (.str "i") }),
                 (1, { type := some (.str "text"), text := some (.str "t") }),
                 (2, { type := some (.str "audio"), text := none })] }

/-- Specification-side index list: the distinct message indices that occur in
the key set, in ascending numeric order. -/
def msgIndices (a : Attrs) (pre : String) : List Nat :=
  List.insertionSort (· ≤ ·)
    ((a.map Prod.fst).filterMap (fun k => (splitMsgKey pre k).map Prod.fst)).dedup

/-- No valid (non-empty string) already-canonical `gen_ai.response.id`. -/
def canonicalIdMiss (a : Attrs) : Prop :=
  ∀ s, lookupKey a "gen_ai.response.id" = some (.str s) → s = ""

/-- No valid (non-empty string) top-level `id` in the parsed payload. -/
def topLevelIdMiss (kvs : List (String × PyJson)) : Prop :=
  ∀ s, pyGet kvs "id" = .str s → s = ""

/-- Items of one outer element of a `generations` list-of-lists payload. -/
def genItems : PyJson → List PyJson
  | .arr inner => inner
  | _ => []

/-- Specification-side reading of the `generations` list-of-lists search:
the first non-empty `message.kwargs.response_metadata.id` across the items,
in order. -/
def specFirstGenerationId (gens : List PyJson) : Option String :=
  ((gens.flatMap genItems).filterMap extract_from_item).head?

/-- The end-to-end trace-bridge scenario of the claim:
`on_trace_start`, `on_span_start`, `on_span_end`, `on_trace_end` from the
empty bridge state. -/
def bridgeScenario (o : BridgeOracles) (tsGen : Nat → Nat) (tr : TraceObj)
    (sp : AgentSpan) : BridgeState :=
  on_trace_end tsGen
    (on_span_end o tsGen
      (on_span_start tsGen (on_trace_start tsGen {} (some tr)) (some sp))
      (some sp))
    (some tr)

/-!
Lemmas about the dict model.
-/

theorem lookupKey_nil {V : Type} (k : String) :
    lookupKey ([] : List (String × V)) k = none := rfl

theorem lookupKey_cons {V : Type} (p : String × V) (m : List (String × V))
    (k : String) :
    lookupKey (p :: m) k = if p.1 = k then some p.2 else lookupKey m k := by
  by_cases h : p.1 = k <;> simp [lookupKey, List.find?_cons, h]

theorem lookupKey_append {V : Type} (a b : List (String × V)) (k : String) :
    lookupKey (a ++ b) k = (lookupKey a k).or (lookupKey b k) := by
  induction a with
  | nil => simp [lookupKey]
  | cons p m ih =>
    rw [List.cons_append, lookupKey_cons, lookupKey_cons]
    by_cases h : p.1 = k <;> simp [h, ih]

theorem lookupKey_setAssoc {V : Type} (m : List (String × V)) (k k2 : String)
    (v : V) :
    lookupKey (setAssoc m k v) k2 = if k2 = k then some v else lookupKey m k2 := by
  induction m with
  | nil =>
    simp only [setAssoc, lookupKey_cons, lookupKey_nil]
    by_cases h : k2 = k
    · rw [if_pos h.symm, if_pos h]
    · rw [if_neg (fun hh => h hh.symm), if_neg h]
  | cons p m ih =>
    simp only [setAssoc]
    by_cases hp : p.1 = k
    · rw [if_pos hp, lookupKey_cons, lookupKey_cons]
      by_cases h : k2 = k
      · rw [if_pos (h.symm : k = k2), if_pos h]
      · rw [if_neg (fun hh => h hh.symm), if_neg h,
            if_neg (fun hh : p.1 = k2 => h (hp.symm.trans hh).symm)]
    · rw [if_neg hp, lookupKey_cons, lookupKey_cons, ih]
      by_cases hq : p.1 = k2
      · have hk : ¬ k2 = k := fun hh => hp (hq.trans hh)
        rw [if_pos hq, if_neg hk, if_pos hq]
      · rw [if_neg hq]
        by_cases h : k2 = k
        · rw [if_pos h, if_pos h]
        · rw [if_neg h, if_neg h, if_neg hq]

/-!
Claim C2.
-/

/-- C2: `on_end` on a span whose sampled flag is false makes zero calls to
the downstream processor's `on_end` and performs no attribute conversion
(the drop happens before the converter could run, so not even a
conversion that would raise is attempted). -/
theorem C2_unsampled_span_dropped_silently (jl : String → Option PyJson)
    (jd : PyJson → String) (span : ReadableSpan) (h : span.sampled = false) :
    IntrospectionSpanProcessor.on_end jl jd span = .ok [] := by
  simp [IntrospectionSpanProcessor.on_end, h]

/-- Witness for C2: a concrete unsampled OpenInference span whose attributes
would make the converter raise is still dropped with zero downstream calls. -/
theorem C2_witness :
    ({ name := "llm", context := 1, parent := none, startTime := 0,
       endTime := some 5, statusCode := 0, events := [], links := [],
       attributes := [("input.value", .str "5")], sampled := false,
       scopeName := some "openinference.instrumentation.openai" } :
        ReadableSpan).sampled = false ∧
    IntrospectionSpanProcessor.on_end jlFix jdFix
      { name := "llm", context := 1, parent := none, startTime := 0,
        endTime := some 5, statusCode := 0, events := [], links := [],
        attributes := [("input.value", .str "5")], sampled := false,
        scopeName := some "openinference.instrumentation.openai" } = .ok [] :=
  ⟨rfl, C2_unsampled_span_dropped_silently jlFix jdFix _ rfl⟩

/-!
Claim C1.
-/

/-- C1 (refuting evaluation): the claim says `convert_openinference_to_genai`
never raises, for any attribute map including JSON payloads that are not
objects.  On the concrete map `{"input.value": "5"}` — `"5"` is valid JSON
whose payload is not an object — `extract_system_instructions` calls
`parsed.get("instructions")` on the integer `5`, raising an uncaught
`AttributeError` that escapes the converter. -/
theorem C1_convert_raises_on_nonobject_input_value :
    convert_openinference_to_genai jlFix jdFix
      (some [("input.value", .str "5")]) = .error "AttributeError" := by rfl

/-!
Claim C7.
-/

theorem lookup_optEntry (k k2 : String) (v : Option AttrValue) :
    lookupKey (optEntry k v) k2 = if k = k2 then v else none := by
  cases v with
  | none => simp [optEntry, lookupKey_nil]
  | some w => simp [optEntry, lookupKey_cons, lookupKey_nil]

theorem validateStr_map_str (v : Option String) :
    validateStr (v.map .str) = .ok v := by cases v <;> rfl

theorem validateInt_map_int (v : Option Int) :
    validateInt (v.map .int) = .ok v := by cases v <;> rfl

theorem bind_ok {ε α β : Type} (a : α) (f : α → Except ε β) :
    (Except.ok a >>= f) = f a := rfl

/-- Lookup of each alias in a serialized `GenAiAttributes` recovers exactly
the corresponding field. -/
theorem lookup_to_attributes (g : GenAiAttributes) :
    lookupKey g.to_attributes "gen_ai.request.model" = g.request_model.map .str ∧
    lookupKey g.to_attributes "gen_ai.system" = g.system.map .str ∧
    lookupKey g.to_attributes "gen_ai.tool.definitions" = g.tool_definitions.map .str ∧
    lookupKey g.to_attributes "gen_ai.input.messages" = g.input_messages.map .str ∧
    lookupKey g.to_attributes "gen_ai.output.messages" = g.output_messages.map .str ∧
    lookupKey g.to_attributes "gen_ai.system_instructions" = g.system_instructions.map .str ∧
    lookupKey g.to_attributes "gen_ai.response.id" = g.response_id.map .str ∧
    lookupKey g.to_attributes "gen_ai.usage.input_tokens" = g.input_tokens.map .int ∧
    lookupKey g.to_attributes "gen_ai.usage.output_tokens" = g.output_tokens.map .int := by
  refine ⟨?_, ?_, ?_, ?_, ?_, ?_, ?_, ?_, ?_⟩ <;>
    simp [GenAiAttributes.to_attributes, lookupKey_append, lookup_optEntry]

/-- C7: parsing the serialized attribute map of any `GenAiAttributes` back
through pydantic validation and serializing again reproduces the same
attribute map (idempotent re-serialization); in fact the parse recovers the
value exactly. -/
theorem C7_to_from_to_roundtrip (x : GenAiAttributes) :
    (GenAiAttributes.from_attributes x.to_attributes).map
      GenAiAttributes.to_attributes = .ok x.to_attributes := by
  obtain ⟨h1, h2, h3, h4, h5, h6, h7, h8, h9⟩ := lookup_to_attributes x
  have hx : GenAiAttributes.from_attributes x.to_attributes = .ok x := by
    simp only [GenAiAttributes.from_attributes, h1, h2, h3, h4, h5, h6, h7,
      h8, h9, validateStr_map_str, validateInt_map_int, bind_ok]
    rfl
  rw [hx]
  rfl

/-!
Claim C8.
-/

theorem lookupKey_eq_none_iff {V : Type} (m : List (String × V)) (k : String) :
    lookupKey m k = none ↔ k ∉ m.map Prod.fst := by
  induction m with
  | nil => simp [lookupKey_nil]
  | cons p m ih =>
    rw [lookupKey_cons]
    by_cases h : p.1 = k
    · simp [h]
    · have h2 : ¬ k = p.1 := fun hh => h hh.symm
      simp [h, h2, ih]

theorem lookupKey_updateDict {V : Type} (base upd : List (String × V))
    (k : String) (h : (upd.map Prod.fst).Nodup) :
    lookupKey (updateDict base upd) k
      = (lookupKey upd k).or (lookupKey base k) := by
  induction upd generalizing base with
  | nil => simp [updateDict, lookupKey_nil]
  | cons u us ih =>
    simp only [List.map_cons, List.nodup_cons] at h
    simp only [updateDict, List.foldl_cons] at *
    rw [ih _ h.2, lookupKey_setAssoc, lookupKey_cons]
    by_cases hk : k = u.1
    · have hnone : lookupKey us k = none :=
        (lookupKey_eq_none_iff us k).2 (hk ▸ h.1)
      rw [hnone, if_pos hk, if_pos hk.symm]
      rfl
    · rw [if_neg hk, if_neg (fun hh => hk hh.symm)]

theorem lookupKey_filter_key {V : Type} (q : String → Bool)
    (m : List (String × V)) (k : String) :
    lookupKey (m.filter (fun p => q p.1)) k
      = if q k then lookupKey m k else none := by
  induction m with
  | nil => simp [lookupKey_nil]
  | cons p m ih =>
    rw [List.filter_cons]
    by_cases hq : q p.1
    · simp only [hq, if_pos]
      rw [lookupKey_cons, lookupKey_cons]
      by_cases hk : p.1 = k
      · rw [if_pos hk, if_pos (hk ▸ hq), if_pos hk]
      · rw [if_neg hk, if_neg hk, ih]
    · simp only [hq, Bool.false_eq_true, if_false]
      rw [ih, lookupKey_cons]
      by_cases hk : p.1 = k
      · have : q k = false := by
          subst hk
          exact Bool.not_eq_true _ ▸ (by simpa using hq)
        simp [this]
      · rw [if_neg hk]

theorem keys_to_attributes_nodup (g : GenAiAttributes) :
    (g.to_attributes.map Prod.fst).Nodup := by
  have hsub : (g.to_attributes.map Prod.fst).Sublist
      ["gen_ai.request.model", "gen_ai.system", "gen_ai.tool.definitions",
       "gen_ai.input.messages", "gen_ai.output.messages",
       "gen_ai.system_instructions", "gen_ai.response.id",
       "gen_ai.usage.input_tokens", "gen_ai.usage.output_tokens"] := by
    have e1 : ∀ (k : String) (v : Option AttrValue),
        ((optEntry k v).map Prod.fst).Sublist [k] := by
      intro k v
      cases v <;> simp [optEntry]
    simp only [GenAiAttributes.to_attributes, List.map_append]
    exact ((((((((e1 _ _).append (e1 _ _)).append (e1 _ _)).append
      (e1 _ _)).append (e1 _ _)).append (e1 _ _)).append (e1 _ _)).append
      (e1 _ _)).append (e1 _ _)
  exact List.Nodup.sublist hsub (by decide)

/-- C8: the attribute map presented by the converting wrapper satisfies, at
every key, the merge the claim describes — the converted canonical attribute
value when one exists (canonical keys win on collision), else the original
span's value unless its key carries one of the reserved vendor prefixes
`llm.`/`input.`/`output.`, which are removed; and the wrapper delegates
name, context, parent, timing, status, events and links unchanged. -/
theorem C8_spanview_attribute_override (orig : ReadableSpan)
    (g : GenAiAttributes) (k : String) :
    lookupKey (ConvertedReadableSpan.attributes ⟨orig, g⟩) k
      = (lookupKey g.to_attributes k).or
          (if isVendorKey k then none else lookupKey orig.attributes k) ∧
    ConvertedReadableSpan.name ⟨orig, g⟩ = orig.name ∧
    ConvertedReadableSpan.context ⟨orig, g⟩ = orig.context ∧
    ConvertedReadableSpan.parent ⟨orig, g⟩ = orig.parent ∧
    ConvertedReadableSpan.start_time ⟨orig, g⟩ = orig.startTime ∧
    ConvertedReadableSpan.end_time ⟨orig, g⟩ = orig.endTime ∧
    ConvertedReadableSpan.status ⟨orig, g⟩ = orig.statusCode ∧
    ConvertedReadableSpan.events ⟨orig, g⟩ = orig.events ∧
    ConvertedReadableSpan.links ⟨orig, g⟩ = orig.links := by
  refine ⟨?_, rfl, rfl, rfl, rfl, rfl, rfl, rfl, rfl⟩
  unfold ConvertedReadableSpan.attributes
  rw [lookupKey_updateDict _ _ _ (keys_to_attributes_nodup g)]
  congr 1
  rw [lookupKey_filter_key (fun s => !isVendorKey s) orig.attributes k]
  by_cases hv : isVendorKey k <;> simp [hv]

/-!
Claims C3, C4, C10: the per-message conversion.
-/

theorem foldl_ite_append {α β : Type} (P : α → Prop) [DecidablePred P]
    (h : α → β) (l : List α) (init : List β) :
    l.foldl (fun acc x => if P x then acc ++ [h x] else acc) init
      = init ++ l.filterMap (fun x => if P x then some (h x) else none) := by
  induction l generalizing init with
  | nil => simp
  | cons a t ih => by_cases hp : P a <;> simp [hp, ih]

theorem foldl_append_map {α β : Type} (h : α → β) (l : List α)
    (init : List β) :
    l.foldl (fun acc x => acc ++ [h x]) init = init ++ l.map h := by
  induction l generalizing init with
  | nil => simp
  | cons a t ih => simp [ih]

/-- Shared characterization of `finalizeMsg` outside the tool-response
branch: the parts are exactly the contents-array text parts, then the flat
content part (only when no text part was produced yet), then the tool
calls. -/
theorem finalizeMsg_else (jl : String → Option PyJson) (msg : RawMsg)
    (h : ¬ ((msg.role.getD (.str "assistant")) = .str "tool" ∧
            msg.toolCallId.isSome)) :
    finalizeMsg jl msg = .ok
      { role := msg.role.getD (.str "assistant")
        parts := contentsTextParts msg ++ flatContentParts msg ++
          toolCallParts msg } := by
  have hred : finalizeMsg jl msg = .ok
      { role := msg.role.getD (.str "assistant")
        parts := (sortedKeys msg.toolCalls).foldl (fun acc tcIdx =>
          let tc := getAssoc msg.toolCalls tcIdx
          acc ++ [Part.tool_call ((tc.id.map AttrValue.toJson).getD .null)
            ((tc.name.map AttrValue.toJson).getD .null)
            ((tc.arguments.map AttrValue.toJson).getD .null)])
          (let parts1 := (sortedKeys msg.contents).foldl (fun acc cIdx =>
            let c := getAssoc msg.contents cIdx
            if c.type = some (.str "text") then
              acc ++ [Part.text ((c.text.getD (.str "")).toJson)]
            else acc) []
          if msg.hasContent ∧ (msg.contentText.getD (.str "")).truthy then
            if ¬ parts1.any Part.isText then
              parts1 ++ [Part.text ((msg.contentText.getD (.str "")).toJson)]
            else parts1
          else parts1) } := by
    unfold finalizeMsg
    rcases hd : decide ((msg.role.getD (.str "assistant")) = .str "tool") with _ | _ <;>
      rcases ht : msg.toolCallId with _ | tcid
    · simp only [hd, ht]
    · simp only [hd, ht]
    · simp only [hd, ht]
    · exact absurd ⟨of_decide_eq_true hd, by rw [ht]; rfl⟩ h
  rw [hred]
  have hc : (sortedKeys msg.contents).foldl (fun acc cIdx =>
      let c := getAssoc msg.contents cIdx
      if c.type = some (.str "text") then
        acc ++ [Part.text ((c.text.getD (.str "")).toJson)]
      else acc) [] = contentsTextParts msg := by
    rw [foldl_ite_append
      (fun cIdx => (getAssoc msg.contents cIdx).type = some (.str "text"))
      (fun cIdx =>
        Part.text (((getAssoc msg.contents cIdx).text.getD (.str "")).toJson))]
    simp [contentsTextParts]
  congr 1
  rw [foldl_append_map, hc]
  have htc : List.map (fun tcIdx =>
      let tc := getAssoc msg.toolCalls tcIdx
      Part.tool_call ((tc.id.map AttrValue.toJson).getD .null)
        ((tc.name.map AttrValue.toJson).getD .null)
        ((tc.arguments.map AttrValue.toJson).getD .null))
      (sortedKeys msg.toolCalls) = toolCallParts msg := rfl
  by_cases h1 : msg.hasContent ∧ (msg.contentText.getD (.str "")).truthy
  · by_cases h2 : (contentsTextParts msg).any Part.isText
    · simp [h1, h2, flatContentParts, toolCallParts]
    · simp [h1, h2, flatContentParts, toolCallParts]
  · have h3 : ¬ (msg.hasContent ∧ (msg.contentText.getD (.str "")).truthy
        ∧ ¬ (contentsTextParts msg).any Part.isText) :=
      fun hh => h1 ⟨hh.1, hh.2.1⟩
    simp [h1, h3, flatContentParts, toolCallParts]
    exact fun ha hb => absurd ⟨ha, hb⟩ h1

/-- C4: for a reconstructed message that is not a tool response, the parts
appear in exactly this order — one text part per `contents.<n>` entry with
type `"text"` in ascending `n`, then a single text part from the flat
content field only if it was recorded and no text part was produced yet,
then one tool-call part per `tool_calls.<n>` group in ascending `n`. -/
theorem C4_nontool_message_part_order (jl : String → Option PyJson)
    (msg : RawMsg)
    (h : ¬ ((msg.role.getD (.str "assistant")) = .str "tool" ∧
            msg.toolCallId.isSome)) :
    finalizeMsg jl msg = .ok
      { role := msg.role.getD (.str "assistant")
        parts := contentsTextParts msg ++ flatContentParts msg ++
          toolCallParts msg } :=
  finalizeMsg_else jl msg h

/-- Witness for C4 at `msgW`: one text part from the `contents` entry 0, no
flat part (a text part exists), then the tool call. -/
theorem C4_witness :
    (¬ ((msgW.role.getD (.str "assistant")) = .str "tool" ∧
        msgW.toolCallId.isSome)) ∧
    finalizeMsg jlFix msgW = .ok
      { role := .str "user"
        parts := [.text (.str "hello"),
                  .tool_call (.str "c1") (.str "f") (.str "{}")] } :=
  ⟨by decide, (C4_nontool_message_part_order jlFix msgW (by decide)).trans (by rfl)⟩

/-- C3 (refuting evaluation): the claim promises a reconstructed message
with exactly one `ToolCallResponse` part for every tool-role group carrying
a `tool_call_id`, regardless of the flat content field.  For the concrete
group whose flat content is the truthy non-string attribute value `5`, the
source instead raises an uncaught `TypeError` (`json.loads(5)`), so no
message is reconstructed at all. -/
theorem C3_counterexample :
    _extract_messages jlFix
      (some [("llm.input_messages.0.message.role", .str "tool"),
             ("llm.input_messages.0.message.tool_call_id", .str "call_7"),
             ("llm.input_messages.0.message.content", .int 5)])
      "llm.input_messages" = .error "TypeError" := by rfl

/-- C3 (amended): for every grouped message whose role is `"tool"` and which
carries a `tool_call_id`, provided the flat content value — if any was
recorded — is a string, the reconstructed message has exactly one part, of
type `ToolCallResponse`, regardless of whether the flat content field is
present; its response is the JSON-parsed content when parseable, else the
raw string (and `null` when the content is absent or empty). -/
theorem C3_tool_response_single_part (jl : String → Option PyJson)
    (msg : RawMsg) (tcid : AttrValue)
    (hrole : msg.role = some (.str "tool"))
    (hid : msg.toolCallId = some tcid)
    (hstr : msg.contentText = none ∨ ∃ s, msg.contentText = some (.str s)) :
    finalizeMsg jl msg = .ok
      { role := .str "tool"
        parts := [.tool_call_response tcid.toJson
          (match msg.contentText with
           | some (.str s) =>
             if s ≠ "" then
               match jl s with
               | some j => j
               | none => .str s
             else .null
           | _ => .null)] } := by
  rcases hstr with hnone | ⟨s, hs⟩
  · unfold finalizeMsg
    rw [hrole, hid, hnone]
    rfl
  · unfold finalizeMsg
    rw [hrole, hid, hs]
    by_cases he : s = ""
    · subst he
      rfl
    · simp [AttrValue.truthy, he]

/-- Witness for C3 (amended) at a concrete tool-response group whose content
`"{}"` parses to the empty object; the single part's response is the parsed
value. -/
theorem C3_witness :
    (({ role := some (.str "tool"), hasContent := true,
        contentText := some (.str "{}"),
        toolCallId := some (.str "call_9"),
        contents := [(0, { type := some (.str "text"), text := some (.str "x") })] } :
          RawMsg).role = some (.str "tool")) ∧
    finalizeMsg jlFix
      { role := some (.str "tool"), hasContent := true,
        contentText := some (.str "{}"),
        toolCallId := some (.str "call_9"),
        contents := [(0, { type := some (.str "text"), text := some (.str "x") })] }
      = .ok { role := .str "tool"
              parts := [.tool_call_response (.str "call_9") (.obj [])] } :=
  ⟨rfl, (C3_tool_response_single_part jlFix _ (.str "call_9") rfl rfl
    (Or.inr ⟨"{}", rfl⟩)).trans (by rfl)⟩

theorem getAssoc_cons {K V : Type} [DecidableEq K] [Inhabited V] (p : K × V)
    (m : List (K × V)) (k : K) :
    getAssoc (p :: m) k = if p.1 = k then p.2 else getAssoc m k := by
  unfold getAssoc
  by_cases h : p.1 = k <;> simp [List.find?_cons, h]

theorem mem_keys_filter {V : Type} [Inhabited V] (q : V → Bool)
    (m : List (Nat × V)) (i : Nat) (hnd : (m.map Prod.fst).Nodup) :
    (i ∈ (m.filter (fun p => q p.2)).map Prod.fst)
      ↔ i ∈ m.map Prod.fst ∧ q (getAssoc m i) := by
  induction m with
  | nil => simp
  | cons p m ih =>
    simp only [List.map_cons, List.nodup_cons] at hnd
    rw [List.filter_cons, getAssoc_cons]
    by_cases hip : p.1 = i
    · have hnin : i ∉ m.map Prod.fst := hip ▸ hnd.1
      rw [if_pos hip]
      by_cases hq : q p.2
      · rw [if_pos hq]
        constructor
        · intro _
          exact ⟨List.mem_cons.2 (Or.inl hip.symm), hq⟩
        · intro _
          exact List.mem_cons.2 (Or.inl hip.symm)
      · rw [if_neg hq]
        constructor
        · intro hmem
          have hsub : (m.filter (fun p => q p.2)).map Prod.fst ⊆ m.map Prod.fst :=
            ((List.filter_sublist m).map Prod.fst).subset
          exact absurd (hsub hmem) hnin
        · rintro ⟨_, hq2⟩
          exact absurd hq2 hq
    · rw [if_neg hip]
      have hmemiff : (i ∈ (p :: m).map Prod.fst) ↔ i ∈ m.map Prod.fst := by
        simp only [List.map_cons, List.mem_cons]
        constructor
        · rintro (h1 | h2)
          · exact absurd h1.symm hip
          · exact h2
        · exact Or.inr
      by_cases hq : q p.2
      · rw [if_pos hq]
        simp only [List.map_cons, List.mem_cons]
        rw [ih hnd.2]
        constructor
        · rintro (h1 | h2)
          · exact absurd h1.symm hip
          · exact ⟨Or.inr h2.1, h2.2⟩
        · rintro ⟨h1 | h1, h2⟩
          · exact absurd h1.symm hip
          · exact Or.inr ⟨h1, h2⟩
      · rw [if_neg hq, ih hnd.2, hmemiff]

theorem getAssoc_filter {V : Type} [Inhabited V] (q : V → Bool)
    (m : List (Nat × V)) (i : Nat) (hq : q (getAssoc m i) = true) :
    getAssoc (m.filter (fun p => q p.2)) i = getAssoc m i := by
  induction m with
  | nil => simp
  | cons p m ih =>
    rw [getAssoc_cons] at hq ⊢
    by_cases hip : p.1 = i
    · rw [if_pos hip] at hq ⊢
      rw [List.filter_cons, if_pos hq, getAssoc_cons, if_pos hip]
    · rw [if_neg hip] at hq ⊢
      rw [List.filter_cons]
      by_cases hqp : q p.2
      · rw [if_pos hqp, getAssoc_cons, if_neg hip, ih hq]
      · rw [if_neg hqp, ih hq]

theorem sortedKeys_filter {V : Type} [Inhabited V] (q : V → Bool)
    (m : List (Nat × V)) (hnd : (m.map Prod.fst).Nodup) :
    sortedKeys (m.filter (fun p => q p.2))
      = (sortedKeys m).filter (fun i => q (getAssoc m i)) := by
  have hnd2 : (sortedKeys m).Nodup :=
    (List.perm_insertionSort _ _).nodup_iff.2 hnd
  refine List.eq_of_perm_of_sorted ?_ (List.sorted_insertionSort _ _)
    ((List.sorted_insertionSort (· ≤ ·) (m.map Prod.fst)).filter _)
  have h1 : ((m.filter (fun p => q p.2)).map Prod.fst).Nodup :=
    List.Nodup.sublist ((List.filter_sublist m).map Prod.fst) hnd
  refine List.Perm.trans (List.perm_insertionSort _ _)
    ((List.perm_ext_iff_of_nodup h1 (hnd2.filter _)).2 ?_)
  intro i
  rw [mem_keys_filter q m i hnd, List.mem_filter]
  constructor
  · rintro ⟨hmem, hq⟩
    exact ⟨by simpa [sortedKeys] using
      ((List.perm_insertionSort (· ≤ ·) (m.map Prod.fst)).mem_iff).2 hmem, hq⟩
  · rintro ⟨hmem, hq⟩
    refine ⟨?_, hq⟩
    simpa using ((List.perm_insertionSort (· ≤ ·) (m.map Prod.fst)).mem_iff).1
      (by simpa [sortedKeys] using hmem)

theorem filterMap_filter_of_none {α β : Type} (p : α → Bool)
    (g : α → Option β) (h : ∀ a, p a = false → g a = none) (l : List α) :
    (l.filter p).filterMap g = l.filterMap g := by
  induction l with
  | nil => rfl
  | cons a t ih =>
    rw [List.filter_cons]
    by_cases hp : p a
    · simp only [hp, if_pos]
      rw [List.filterMap_cons, List.filterMap_cons]
      cases g a <;> simp [ih]
    · simp only [hp, Bool.false_eq_true, if_false]
      rw [ih, List.filterMap_cons, h a (by simpa using hp)]

/-- Dropping the non-text entries of the `contents` map does not change the
contents-derived text parts. -/
theorem contentsTextParts_filter (msg : RawMsg)
    (hnd : (msg.contents.map Prod.fst).Nodup) :
    contentsTextParts (filterTextContents msg) = contentsTextParts msg := by
  unfold contentsTextParts filterTextContents
  show (sortedKeys (msg.contents.filter
      (fun p => decide (p.2.type = some (.str "text"))))).filterMap _ = _
  rw [sortedKeys_filter (fun c => decide (c.type = some (.str "text")))
    msg.contents hnd]
  rw [List.filterMap_congr (g := fun cIdx =>
    if (getAssoc msg.contents cIdx).type = some (.str "text") then
      some (Part.text (((getAssoc msg.contents cIdx).text.getD (.str "")).toJson))
    else none) ?_]
  · exact filterMap_filter_of_none _ _
      (fun i hfalse => by
        rw [if_neg]
        simpa using hfalse) _
  · intro i hi
    have hq : decide ((getAssoc msg.contents i).type = some (.str "text")) = true :=
      (List.mem_filter.1 hi).2
    have hget := getAssoc_filter
      (fun c => decide (c.type = some (.str "text"))) msg.contents i hq
    simp only [hget]

/-- C10: a `contents.<n>` entry whose type is anything other than `"text"`
(or missing) contributes no part to the reconstructed message — deleting all
such entries from a grouped message leaves the conversion result unchanged
(the tool-response branch never reads `contents`, and the other branch only
keeps text-typed entries). -/
theorem C10_nontext_contents_dropped (jl : String → Option PyJson)
    (msg : RawMsg) (hnd : (msg.contents.map Prod.fst).Nodup) :
    finalizeMsg jl (filterTextContents msg) = finalizeMsg jl msg := by
  by_cases htool : (msg.role.getD (.str "assistant")) = .str "tool" ∧
      msg.toolCallId.isSome
  · rcases ht : msg.toolCallId with _ | tcid
    · rw [ht] at htool
      exact absurd htool.2 (by simp)
    · have hd : decide ((msg.role.getD (.str "assistant")) = .str "tool") = true :=
        decide_eq_true htool.1
      unfold finalizeMsg filterTextContents
      dsimp only
      rw [hd, ht]
  · have htool2 : ¬(((filterTextContents msg).role.getD (.str "assistant"))
        = .str "tool" ∧ (filterTextContents msg).toolCallId.isSome) := htool
    rw [finalizeMsg_else jl _ htool2, finalizeMsg_else jl msg htool]
    have hctp := contentsTextParts_filter msg hnd
    rw [hctp]
    have hflat : flatContentParts (filterTextContents msg)
        = flatContentParts msg := by
      unfold flatContentParts
      rw [hctp]
      rfl
    rw [hflat]
    rfl

/-- Witness for C10 at `msgW10`: deleting the two non-text entries leaves the
conversion unchanged (both sides produce only the text part). -/
theorem C10_witness :
    (msgW10.contents.map Prod.fst).Nodup ∧
    finalizeMsg jlFix (filterTextContents msgW10) = finalizeMsg jlFix msgW10 ∧
    finalizeMsg jlFix msgW10
      = .ok { role := .str "user", parts := [.text (.str "t")] } :=
  ⟨by decide, C10_nontext_contents_dropped jlFix msgW10 (by decide), by rfl⟩

/-!
Claim C5: message reconstruction produces exactly one message per distinct
numeric index present in the key set, in ascending index order.
-/

theorem keys_updAssoc {K V : Type} [DecidableEq K] (m : List (K × V)) (k : K)
    (d : V) (f : V → V) :
    (updAssoc m k d f).map Prod.fst
      = if k ∈ m.map Prod.fst then m.map Prod.fst
        else m.map Prod.fst ++ [k] := by
  induction m with
  | nil => simp [updAssoc]
  | cons p m ih =>
    simp only [updAssoc]
    by_cases hp : p.1 = k
    · rw [if_pos hp]
      simp [hp]
    · rw [if_neg hp]
      have hne : ¬ k = p.1 := fun hh => hp hh.symm
      simp only [List.map_cons, List.mem_cons, ih]
      by_cases hin : k ∈ m.map Prod.fst
      · rw [if_pos hin, if_pos (Or.inr hin)]
      · rw [if_neg hin, if_neg (by
          rintro (h1 | h2)
          · exact hne h1
          · exact hin h2)]
        simp

theorem nodup_keys_updAssoc {K V : Type} [DecidableEq K] (m : List (K × V))
    (k : K) (d : V) (f : V → V) (h : (m.map Prod.fst).Nodup) :
    ((updAssoc m k d f).map Prod.fst).Nodup := by
  rw [keys_updAssoc]
  by_cases hin : k ∈ m.map Prod.fst
  · rw [if_pos hin]
    exact h
  · rw [if_neg hin]
    exact List.nodup_append.2 ⟨h, List.nodup_singleton k,
      fun x hx hk => hin (by
        simp only [List.mem_singleton] at hk
        exact hk ▸ hx)⟩

theorem mem_keys_updAssoc {K V : Type} [DecidableEq K] (m : List (K × V))
    (k i : K) (d : V) (f : V → V) :
    i ∈ (updAssoc m k d f).map Prod.fst ↔ i ∈ m.map Prod.fst ∨ i = k := by
  rw [keys_updAssoc]
  by_cases hin : k ∈ m.map Prod.fst
  · rw [if_pos hin]
    constructor
    · exact Or.inl
    · rintro (h1 | h1)
      · exact h1
      · exact h1 ▸ hin
  · rw [if_neg hin]
    simp

theorem nodup_keys_groupFold (pre : String) (a : Attrs) :
    ∀ acc : List (Nat × RawMsg), (acc.map Prod.fst).Nodup →
      ((a.foldl (groupStep pre) acc).map Prod.fst).Nodup := by
  induction a with
  | nil => exact fun acc h => h
  | cons kv a ih =>
    intro acc hacc
    rw [List.foldl_cons]
    refine ih _ ?_
    unfold groupStep
    match splitMsgKey pre kv.1 with
    | none => exact hacc
    | some (idx, rest) => exact nodup_keys_updAssoc _ _ _ _ hacc

theorem groupStep_none (pre : String) (acc : List (Nat × RawMsg))
    (kv : String × AttrValue) (h : splitMsgKey pre kv.1 = none) :
    groupStep pre acc kv = acc := by
  unfold groupStep
  rw [h]

theorem groupStep_some (pre : String) (acc : List (Nat × RawMsg))
    (kv : String × AttrValue) (idx : Nat) (rest : String)
    (h : splitMsgKey pre kv.1 = some (idx, rest)) :
    groupStep pre acc kv
      = updAssoc acc idx {} (fun m => applyMsgField m rest kv.2) := by
  unfold groupStep
  rw [h]

theorem mem_keys_groupFold (pre : String) (a : Attrs) :
    ∀ (acc : List (Nat × RawMsg)) (i : Nat),
      i ∈ ((a.foldl (groupStep pre) acc).map Prod.fst)
        ↔ i ∈ acc.map Prod.fst ∨
          i ∈ a.filterMap (fun kv => (splitMsgKey pre kv.1).map Prod.fst) := by
  induction a with
  | nil => simp
  | cons kv a ih =>
    intro acc i
    rw [List.foldl_cons]
    rcases hsplit : splitMsgKey pre kv.1 with _ | ⟨idx, rest⟩
    · rw [groupStep_none pre acc kv hsplit, ih,
        List.filterMap_cons_none (by rw [hsplit]; rfl)]
    · rw [groupStep_some pre acc kv idx rest hsplit, ih, mem_keys_updAssoc,
        List.filterMap_cons_some (by rw [hsplit]; rfl)]
      simp only [List.mem_cons]
      constructor
      · rintro ((h1 | h1) | h2)
        · exact Or.inl h1
        · exact Or.inr (Or.inl h1)
        · exact Or.inr (Or.inr h2)
      · rintro (h1 | h1 | h2)
        · exact Or.inl (Or.inl h1)
        · exact Or.inl (Or.inr h1)
        · exact Or.inr h2

/-- The index keys of the grouped map, sorted, are exactly the sorted
distinct indices present in the key set. -/
theorem sortedKeys_groupMessages (a : Attrs) (pre : String) :
    sortedKeys (groupMessages a pre) = msgIndices a pre := by
  have hnd1 : ((groupMessages a pre).map Prod.fst).Nodup :=
    nodup_keys_groupFold pre a [] (by simp)
  have hnd2 : ((a.map Prod.fst).filterMap
      (fun k => (splitMsgKey pre k).map Prod.fst)).dedup.Nodup :=
    List.nodup_dedup _
  refine List.eq_of_perm_of_sorted ?_ (List.sorted_insertionSort _ _)
    (List.sorted_insertionSort _ _)
  refine List.Perm.trans (List.perm_insertionSort _ _)
    (List.Perm.trans ((List.perm_ext_iff_of_nodup hnd1 hnd2).2 ?_)
      (List.perm_insertionSort _ _).symm)
  intro i
  unfold groupMessages
  rw [mem_keys_groupFold pre a [] i, List.mem_dedup, List.filterMap_map]
  simp [Function.comp]

theorem mapM_ok_length {α β : Type} (f : α → Except String β) :
    ∀ (ks : List α) (l : List β), ks.mapM f = .ok l → l.length = ks.length := by
  intro ks
  induction ks with
  | nil =>
    intro l h
    simp only [List.mapM_nil] at h
    cases h
    rfl
  | cons k ks ih =>
    intro l h
    rw [List.mapM_cons] at h
    cases hfk : f k with
    | error e => rw [hfk] at h; cases h
    | ok b =>
      rw [hfk] at h
      cases hrest : ks.mapM f with
      | error e =>
        rw [hrest] at h
        cases h
      | ok bs =>
        rw [hrest] at h
        cases h
        simp [ih bs hrest]

/-- C5: message reconstruction visits exactly one grouped message per
distinct numeric index present in the key set, in ascending index order
(`msgIndices`, which is sorted, duplicate-free, and contains exactly the
indices for which some matching key exists); consequently a successful
extraction returns exactly one message per distinct present index, and
absent indices produce none. -/
theorem C5_one_message_per_present_index (jl : String → Option PyJson)
    (a : Attrs) (pre : String) :
    _extract_messages jl (some a) pre
      = (msgIndices a pre).mapM
          (fun idx => finalizeMsg jl (getAssoc (groupMessages a pre) idx)) ∧
    (msgIndices a pre).Sorted (· ≤ ·) ∧
    (msgIndices a pre).Nodup ∧
    (∀ i, i ∈ msgIndices a pre ↔
      ∃ k ∈ a.map Prod.fst, (splitMsgKey pre k).map Prod.fst = some i) ∧
    (∀ l, _extract_messages jl (some a) pre = .ok l →
      l.length = (msgIndices a pre).length) := by
  have heq : _extract_messages jl (some a) pre
      = (msgIndices a pre).mapM
          (fun idx => finalizeMsg jl (getAssoc (groupMessages a pre) idx)) := by
    show (sortedKeys (groupMessages a pre)).mapM
        (fun idx => finalizeMsg jl (getAssoc (groupMessages a pre) idx)) = _
    rw [sortedKeys_groupMessages]
  refine ⟨heq, List.sorted_insertionSort _ _,
    (List.perm_insertionSort _ _).nodup_iff.2 (List.nodup_dedup _), ?_, ?_⟩
  · intro i
    unfold msgIndices
    rw [(List.perm_insertionSort (· ≤ ·) _).mem_iff, List.mem_dedup,
      List.mem_filterMap]
  · intro l hl
    rw [heq] at hl
    exact mapM_ok_length _ _ l hl

/-!
Claim C6: the response-id resolution order.
-/

theorem searchGenList_eq (l : List PyJson) :
    searchGenList l = (l.filterMap extract_from_item).head? := by
  induction l with
  | nil => rfl
  | cons item rest ih =>
    unfold searchGenList
    rcases hi : extract_from_item item with _ | rid
    · rw [List.filterMap_cons_none hi, ih]
    · rw [List.filterMap_cons_some hi]
      rfl

theorem searchGenerations_eq_spec (gens : List PyJson)
    (h : ∀ g ∈ gens, ∃ inner, g = .arr inner) :
    searchGenerations gens = specFirstGenerationId gens := by
  induction gens with
  | nil => rfl
  | cons g rest ih =>
    obtain ⟨inner, hg⟩ := h g (List.mem_cons_self g rest)
    subst hg
    have hrest := ih (fun g hgm => h g (List.mem_cons_of_mem _ hgm))
    have hstep : searchGenerations (PyJson.arr inner :: rest)
        = match searchGenList inner with
          | some rid => some rid
          | none => searchGenerations rest := rfl
    have hflat : specFirstGenerationId (PyJson.arr inner :: rest)
        = ((inner.filterMap extract_from_item) ++
            ((rest.flatMap genItems).filterMap extract_from_item)).head? := by
      unfold specFirstGenerationId
      rw [List.flatMap_cons, List.filterMap_append]
      rfl
    rw [hstep, searchGenList_eq, hflat, List.head?_append]
    rcases hh : (inner.filterMap extract_from_item).head? with _ | rid
    · exact hrest
    · rfl

theorem responseIdFromOutput_eq (jl : String → Option PyJson) (a : Attrs)
    (ov : String)
    (hov : lookupKey a SpanAttributes.OUTPUT_VALUE = some (.str ov)) :
    responseIdFromOutput jl a
      = if ov = "" then none
        else
          match jl ov with
          | none => none
          | some payload =>
            match payload.asObj? with
            | none => none
            | some kvs =>
              match pyGet kvs "id" with
              | .str rid =>
                if rid ≠ "" then some rid
                else _extract_response_id_from_langchain_output kvs
              | _ => _extract_response_id_from_langchain_output kvs := by
  unfold responseIdFromOutput
  rw [hov]

theorem extract_response_id_some_eq (jl : String → Option PyJson)
    (a : Attrs) :
    extract_response_id jl (some a)
      = match lookupKey a "gen_ai.response.id" with
        | some (.str s) => if s ≠ "" then some s else responseIdFromOutput jl a
        | _ => responseIdFromOutput jl a := rfl

theorem extract_response_id_of_canonical_miss (jl : String → Option PyJson)
    (a : Attrs) (h : canonicalIdMiss a) :
    extract_response_id jl (some a) = responseIdFromOutput jl a := by
  rw [extract_response_id_some_eq]
  rcases hc : lookupKey a "gen_ai.response.id" with _ | v
  · rfl
  · cases v with
    | str s =>
      have hs : s = "" := h s hc
      subst hs
      simp
    | int n => rfl
    | bool b => rfl

/-- C6: the response id is resolved in exactly the claimed order.  (1) A
non-empty already-canonical `gen_ai.response.id` string wins outright.
Otherwise, with `output.value` present as a non-empty string: (2a) malformed
JSON yields `none`; (2b) a payload that is not an object yields `none`;
(2c) a non-empty top-level `id` string of the parsed object is returned;
(2d) failing that, a `generations` list-of-lists payload is searched for the
first non-empty `message.kwargs.response_metadata.id`, and (2e) without a
`generations` list the result is `none`.  (3) Without a usable
`output.value` the result is `none`. -/
theorem C6_response_id_resolution_order (jl : String → Option PyJson)
    (a : Attrs) :
    (∀ s, s ≠ "" → lookupKey a "gen_ai.response.id" = some (.str s) →
      extract_response_id jl (some a) = some s) ∧
    (canonicalIdMiss a →
      ∀ ov, lookupKey a SpanAttributes.OUTPUT_VALUE = some (.str ov) →
        ov ≠ "" →
        ((jl ov = none → extract_response_id jl (some a) = none) ∧
         (∀ p, jl ov = some p → p.asObj? = none →
           extract_response_id jl (some a) = none) ∧
         (∀ kvs, jl ov = some (.obj kvs) →
           ((∀ i, i ≠ "" → pyGet kvs "id" = .str i →
              extract_response_id jl (some a) = some i) ∧
            (topLevelIdMiss kvs →
              ((∀ gens, pyGet kvs "generations" = .arr gens →
                 (∀ g ∈ gens, ∃ inner, g = .arr inner) →
                 extract_response_id jl (some a) = specFirstGenerationId gens) ∧
               ((∀ gens, pyGet kvs "generations" ≠ .arr gens) →
                 extract_response_id jl (some a) = none))))))) ∧
    (canonicalIdMiss a →
      (∀ ov, lookupKey a SpanAttributes.OUTPUT_VALUE = some (.str ov) → ov = "") →
      extract_response_id jl (some a) = none) := by
  refine ⟨?_, ?_, ?_⟩
  · intro s hs hc
    rw [extract_response_id_some_eq, hc]
    simp [hs]
  · intro hmiss ov hov hovne
    have hbase := extract_response_id_of_canonical_miss jl a hmiss
    have hlang : ∀ kvs, topLevelIdMiss kvs →
        (match pyGet kvs "id" with
         | .str rid =>
           if rid ≠ "" then some rid
           else _extract_response_id_from_langchain_output kvs
         | _ => _extract_response_id_from_langchain_output kvs)
          = _extract_response_id_from_langchain_output kvs := by
      intro kvs hid
      rcases hg : pyGet kvs "id" with _ | b | n | s | l | o
      · rfl
      · rfl
      · rfl
      · have : s = "" := hid s hg
        subst this
        simp
      · rfl
      · rfl
    refine ⟨?_, ?_, ?_⟩
    · intro hjl
      rw [hbase, responseIdFromOutput_eq jl a ov hov, if_neg hovne, hjl]
    · intro p hjl hobj
      rw [hbase, responseIdFromOutput_eq jl a ov hov, if_neg hovne, hjl]
      show (match p.asObj? with
        | none => none
        | some kvs =>
          match pyGet kvs "id" with
          | .str rid =>
            if rid ≠ "" then some rid
            else _extract_response_id_from_langchain_output kvs
          | _ => _extract_response_id_from_langchain_output kvs)
        = (none : Option String)
      rw [hobj]
    · intro kvs hjl
      refine ⟨?_, ?_⟩
      · intro i hine hid
        rw [hbase, responseIdFromOutput_eq jl a ov hov, if_neg hovne, hjl]
        show (match pyGet kvs "id" with
          | .str rid =>
            if rid ≠ "" then some rid
            else _extract_response_id_from_langchain_output kvs
          | _ => _extract_response_id_from_langchain_output kvs) = some i
        rw [hid]
        show (if i ≠ "" then some i
          else _extract_response_id_from_langchain_output kvs) = some i
        rw [if_pos hine]
      · intro hidmiss
        have hred : extract_response_id jl (some a)
            = _extract_response_id_from_langchain_output kvs := by
          rw [hbase, responseIdFromOutput_eq jl a ov hov, if_neg hovne, hjl]
          show (match pyGet kvs "id" with
            | .str rid =>
              if rid ≠ "" then some rid
              else _extract_response_id_from_langchain_output kvs
            | _ => _extract_response_id_from_langchain_output kvs)
            = _extract_response_id_from_langchain_output kvs
          exact hlang kvs hidmiss
        refine ⟨?_, ?_⟩
        · intro gens hgens hll
          rw [hred]
          unfold _extract_response_id_from_langchain_output
          rw [hgens]
          exact searchGenerations_eq_spec gens hll
        · intro hnot
          rw [hred]
          unfold _extract_response_id_from_langchain_output
          rcases hg : pyGet kvs "generations" with _ | b | n | s | l | o
          · rfl
          · rfl
          · rfl
          · rfl
          · exact absurd hg (hnot l)
          · rfl
  · intro hmiss hout
    rw [extract_response_id_of_canonical_miss jl a hmiss]
    unfold responseIdFromOutput
    rcases hov : lookupKey a SpanAttributes.OUTPUT_VALUE with _ | v
    · rfl
    · cases v with
      | str s =>
        have : s = "" := hout s hov
        subst this
        simp
      | int n => rfl
      | bool b => rfl

/-!
Claim C9: observation lemmas about the bridge-state operations.  Setting an
attribute on one span handle changes no field of any handle other than that
handle's attribute dict, and ending a handle changes only its end time.
-/

theorem setSpanAttr_tsCount (st : BridgeState) (i : Nat) (k : String)
    (v : PyJson) : (setSpanAttr st i k v).tsCount = st.tsCount := rfl

theorem setSpanAttr_nextCtx (st : BridgeState) (i : Nat) (k : String)
    (v : PyJson) : (setSpanAttr st i k v).nextCtx = st.nextCtx := rfl

theorem setSpanAttr_spans (st : BridgeState) (i : Nat) (k : String)
    (v : PyJson) : (setSpanAttr st i k v).spans = st.spans := rfl

theorem setSpanAttr_map_field {α : Type} (f : OtelSpanRec → α)
    (hf : ∀ r attrs2, f { r with attrs := attrs2 } = f r)
    (st : BridgeState) (i : Nat) (k : String) (v : PyJson) :
    (setSpanAttr st i k v).allSpans.map f = st.allSpans.map f := by
  unfold setSpanAttr
  simp only [List.map_map]
  apply List.map_congr_left
  intro r _
  dsimp only [Function.comp]
  by_cases hr : r.ctx = i
  · rw [if_pos hr, hf]
  · rw [if_neg hr]

theorem setSpanAttr_map_ctx (st : BridgeState) (i : Nat) (k : String)
    (v : PyJson) :
    (setSpanAttr st i k v).allSpans.map (fun r => r.ctx)
      = st.allSpans.map (fun r => r.ctx) :=
  setSpanAttr_map_field (fun r => r.ctx) (fun _ _ => rfl) st i k v

theorem setSpanAttr_map_parent (st : BridgeState) (i : Nat) (k : String)
    (v : PyJson) :
    (setSpanAttr st i k v).allSpans.map (fun r => r.parent)
      = st.allSpans.map (fun r => r.parent) :=
  setSpanAttr_map_field (fun r => r.parent) (fun _ _ => rfl) st i k v

theorem setSpanAttr_map_name (st : BridgeState) (i : Nat) (k : String)
    (v : PyJson) :
    (setSpanAttr st i k v).allSpans.map (fun r => r.name)
      = st.allSpans.map (fun r => r.name) :=
  setSpanAttr_map_field (fun r => r.name) (fun _ _ => rfl) st i k v

theorem setSpanAttr_map_endTime (st : BridgeState) (i : Nat) (k : String)
    (v : PyJson) :
    (setSpanAttr st i k v).allSpans.map (fun r => r.endTime)
      = st.allSpans.map (fun r => r.endTime) :=
  setSpanAttr_map_field (fun r => r.endTime) (fun _ _ => rfl) st i k v

theorem setSpanAttr_map_lookup_ne (st : BridgeState) (i : Nat)
    (k k2 : String) (v : PyJson) (hk : k2 ≠ k) :
    (setSpanAttr st i k v).allSpans.map (fun r => lookupKey r.attrs k2)
      = st.allSpans.map (fun r => lookupKey r.attrs k2) := by
  unfold setSpanAttr
  simp only [List.map_map]
  apply List.map_congr_left
  intro r _
  by_cases hr : r.ctx = i <;> simp [hr, Function.comp, lookupKey_setAssoc, hk]

theorem setSpanAttr_map_lookup_same (st : BridgeState) (i : Nat) (k : String)
    (v : PyJson) :
    (setSpanAttr st i k v).allSpans.map (fun r => lookupKey r.attrs k)
      = st.allSpans.map (fun r =>
          if r.ctx = i then some v else lookupKey r.attrs k) := by
  unfold setSpanAttr
  simp only [List.map_map]
  apply List.map_congr_left
  intro r _
  by_cases hr : r.ctx = i <;> simp [hr, Function.comp, lookupKey_setAssoc]

theorem endSpanRec_tsCount (st : BridgeState) (i t : Nat) :
    (endSpanRec st i t).tsCount = st.tsCount := rfl

theorem endSpanRec_nextCtx (st : BridgeState) (i t : Nat) :
    (endSpanRec st i t).nextCtx = st.nextCtx := rfl

theorem endSpanRec_spans (st : BridgeState) (i t : Nat) :
    (endSpanRec st i t).spans = st.spans := rfl

theorem endSpanRec_map_field {α : Type} (f : OtelSpanRec → α)
    (hf : ∀ r t2, f { r with endTime := some t2 } = f r)
    (st : BridgeState) (i t : Nat) :
    (endSpanRec st i t).allSpans.map f = st.allSpans.map f := by
  unfold endSpanRec
  simp only [List.map_map]
  apply List.map_congr_left
  intro r _
  dsimp only [Function.comp]
  by_cases hr : r.ctx = i
  · rw [if_pos hr, hf]
  · rw [if_neg hr]

theorem endSpanRec_map_ctx (st : BridgeState) (i t : Nat) :
    (endSpanRec st i t).allSpans.map (fun r => r.ctx)
      = st.allSpans.map (fun r => r.ctx) :=
  endSpanRec_map_field (fun r => r.ctx) (fun _ _ => rfl) st i t

theorem endSpanRec_map_parent (st : BridgeState) (i t : Nat) :
    (endSpanRec st i t).allSpans.map (fun r => r.parent)
      = st.allSpans.map (fun r => r.parent) :=
  endSpanRec_map_field (fun r => r.parent) (fun _ _ => rfl) st i t

theorem endSpanRec_map_name (st : BridgeState) (i t : Nat) :
    (endSpanRec st i t).allSpans.map (fun r => r.name)
      = st.allSpans.map (fun r => r.name) :=
  endSpanRec_map_field (fun r => r.name) (fun _ _ => rfl) st i t

theorem endSpanRec_map_lookup (st : BridgeState) (i t : Nat) (k2 : String) :
    (endSpanRec st i t).allSpans.map (fun r => lookupKey r.attrs k2)
      = st.allSpans.map (fun r => lookupKey r.attrs k2) :=
  endSpanRec_map_field (fun r => lookupKey r.attrs k2) (fun _ _ => rfl) st i t

theorem endSpanRec_map_endTime (st : BridgeState) (i t : Nat) :
    (endSpanRec st i t).allSpans.map (fun r => r.endTime)
      = st.allSpans.map (fun r =>
          if r.ctx = i then some t else r.endTime) := by
  unfold endSpanRec
  simp only [List.map_map]
  apply List.map_congr_left
  intro r _
  by_cases hr : r.ctx = i <;> simp [hr, Function.comp]

/-- Processing an agent payload on handle `i` changes nothing observable but
the attribute dicts, and afterwards the handle `i` answers the agent's name
under `gen_ai.agent.name` (the later conditional attributes use other
keys). -/
theorem agent_span_obs (o : BridgeOracles) (st : BridgeState) (i : Nat)
    (aname : String) (tools handoffs : Option (List String))
    (oty : Option String) :
    ((_process_agent_span o st i aname tools handoffs oty).tsCount
       = st.tsCount) ∧
    ((_process_agent_span o st i aname tools handoffs oty).nextCtx
       = st.nextCtx) ∧
    ((_process_agent_span o st i aname tools handoffs oty).spans
       = st.spans) ∧
    ((_process_agent_span o st i aname tools handoffs oty).allSpans.map
        (fun r => r.ctx) = st.allSpans.map (fun r => r.ctx)) ∧
    ((_process_agent_span o st i aname tools handoffs oty).allSpans.map
        (fun r => r.parent) = st.allSpans.map (fun r => r.parent)) ∧
    ((_process_agent_span o st i aname tools handoffs oty).allSpans.map
        (fun r => r.name) = st.allSpans.map (fun r => r.name)) ∧
    ((_process_agent_span o st i aname tools handoffs oty).allSpans.map
        (fun r => r.endTime) = st.allSpans.map (fun r => r.endTime)) ∧
    ((_process_agent_span o st i aname tools handoffs oty).allSpans.map
        (fun r => lookupKey r.attrs "gen_ai.agent.name")
       = st.allSpans.map (fun r =>
           if r.ctx = i then some (.str aname)
           else lookupKey r.attrs "gen_ai.agent.name")) := by
  unfold _process_agent_span
  rcases tools with _ | ts <;> rcases handoffs with _ | hs <;>
    rcases oty with _ | ot <;> dsimp only <;> (try split_ifs) <;>
    refine ⟨?_, ?_, ?_, ?_, ?_, ?_, ?_, ?_⟩ <;>
    simp [setSpanAttr_tsCount, setSpanAttr_nextCtx, setSpanAttr_spans,
      setSpanAttr_map_ctx, setSpanAttr_map_parent, setSpanAttr_map_name,
      setSpanAttr_map_endTime, setSpanAttr_map_lookup_ne,
      setSpanAttr_map_lookup_same]

/-- Attribute-independent observations transport through the agent
extractor. -/
theorem agent_span_map_field (o : BridgeOracles) (st : BridgeState) (i : Nat)
    (aname : String) (tools handoffs : Option (List String))
    (oty : Option String) {α : Type} (f : OtelSpanRec → α)
    (hf : ∀ r attrs2, f { r with attrs := attrs2 } = f r) :
    (_process_agent_span o st i aname tools handoffs oty).allSpans.map f
      = st.allSpans.map f := by
  unfold _process_agent_span
  rcases tools with _ | ts <;> rcases handoffs with _ | hs <;>
    rcases oty with _ | ot <;> dsimp only <;> (try split_ifs) <;>
    simp [setSpanAttr_map_field f hf]

/-- Generic end-time transport through `endSpanRec`. -/
theorem endSpanRec_map_f {α : Type} (f : OtelSpanRec → α) (st : BridgeState)
    (i t : Nat) :
    (endSpanRec st i t).allSpans.map f
      = st.allSpans.map (fun r =>
          if r.ctx = i then f { r with endTime := some t } else f r) := by
  unfold endSpanRec
  simp only [List.map_map]
  apply List.map_congr_left
  intro r _
  dsimp only [Function.comp]
  by_cases hr : r.ctx = i
  · rw [if_pos hr, if_pos hr]
  · rw [if_neg hr, if_neg hr]

/-- Witness for C6: both the canonical-key fast path and the
generations-fallback path evaluated on concrete attribute maps. -/
theorem C6_witness :
    extract_response_id jlFix
      (some [("gen_ai.response.id", .str "resp_0")]) = some "resp_0" ∧
    extract_response_id jlFix
      (some [("output.value", .str "\x7b\"id\": \"resp_1\"\x7d")]) = some "resp_1" :=
  ⟨(C6_response_id_resolution_order jlFix _).1 "resp_0" (by decide) (by rfl),
   (((C6_response_id_resolution_order jlFix _).2.1
      (by intro s hs; simp [lookupKey] at hs) "\x7b\"id\": \"resp_1\"\x7d" (by rfl)
        (by decide)).2.2 [("id", .str "resp_1")] (by rfl)).1 "resp_1"
     (by decide) (by rfl)⟩

/-- Popping a registered span id: `on_span_end` processes the payload on the
found handle, records the raw dump and ends the handle. -/
theorem on_span_end_found_t (o : BridgeOracles) (tsGen : Nat → Nat)
    (st : BridgeState) (sp : AgentSpan) (i : Nat)
    (hfound : lookupKey st.spans sp.span_id = some i) :
    on_span_end o tsGen st (some sp)
      = endSpanRec
          { setSpanAttr
              (processSpanData o
                { st with spans := st.spans.filter (fun p => ¬ p.1 = sp.span_id) }
                i sp.span_data)
              i "openai_agents.span_data" (.str (o.dumpSpanData sp.span_data)) with
            tsCount :=
              (setSpanAttr
                (processSpanData o
                  { st with spans := st.spans.filter (fun p => ¬ p.1 = sp.span_id) }
                  i sp.span_data)
                i "openai_agents.span_data"
                (.str (o.dumpSpanData sp.span_data))).tsCount + 1 }
          i
          (tsGen (setSpanAttr
              (processSpanData o
                { st with spans := st.spans.filter (fun p => ¬ p.1 = sp.span_id) }
                i sp.span_data)
              i "openai_agents.span_data"
              (.str (o.dumpSpanData sp.span_data))).tsCount) := by
  simp only [on_span_end]
  rw [hfound]
  rfl

/-- Popping a registered trace id: `on_trace_end` ends the found handle. -/
theorem on_trace_end_found_t (tsGen : Nat → Nat) (st : BridgeState)
    (tr : TraceObj) (i : Nat)
    (hfound : lookupKey st.spans tr.trace_id = some i) :
    on_trace_end tsGen st (some tr)
      = endSpanRec
          { st with spans := st.spans.filter (fun p => ¬ p.1 = tr.trace_id),
                    tsCount := st.tsCount + 1 }
          i (tsGen st.tsCount) := by
  simp only [on_trace_end]
  rw [hfound]
  rfl

/-- C9: the call sequence `on_trace_start(trace)`, `on_span_start(agent span
with parent_id = trace.trace_id)`, `on_span_end`, `on_trace_end` from the
empty bridge state produces exactly two OTel spans: the outer one named after
the trace, the inner one after the agent; the inner span's parent is the
outer span's context; both are ended (at the third and fourth generated
timestamps); the inner span carries `gen_ai.agent.name` equal to the agent's
name while the outer one does not; and the `self._spans` dict is empty
again. -/
theorem C9_agent_trace_bridge_two_spans (o : BridgeOracles) (tsGen : Nat → Nat) (tr : TraceObj)
    (sp : AgentSpan) (aname : String)
    (tools handoffs : Option (List String)) (oty : Option String)
    (hdata : sp.span_data = .agent aname tools handoffs oty)
    (hpar : sp.parent_id = some tr.trace_id)
    (htr : sp.trace_id = tr.trace_id)
    (hne : sp.span_id ≠ tr.trace_id) :
    (bridgeScenario o tsGen tr sp).allSpans.length = 2 ∧
    (bridgeScenario o tsGen tr sp).allSpans.map (fun r => r.name)
      = [tr.name, aname] ∧
    (bridgeScenario o tsGen tr sp).allSpans.map (fun r => r.ctx) = [0, 1] ∧
    (bridgeScenario o tsGen tr sp).allSpans.map (fun r => r.parent)
      = [none, some 0] ∧
    (bridgeScenario o tsGen tr sp).allSpans.map (fun r => r.endTime)
      = [some (tsGen 3), some (tsGen 2)] ∧
    (bridgeScenario o tsGen tr sp).allSpans.map
        (fun r => lookupKey r.attrs "gen_ai.agent.name")
      = [none, some (.str aname)] ∧
    (bridgeScenario o tsGen tr sp).spans = [] := by
  have hne2 : ¬ tr.trace_id = sp.span_id := fun h => hne h.symm
  have hs2 : on_span_start tsGen (on_trace_start tsGen {} (some tr)) (some sp)
      = { tsCount := 2, nextCtx := 2,
          spans := [(tr.trace_id, 0), (sp.span_id, 1)],
          allSpans := [{ name := tr.name, ctx := 0, parent := none,
                         attrs := [], startTime := tsGen 0, endTime := none },
                       { name := aname, ctx := 1, parent := some 0,
                         attrs := [], startTime := tsGen 1, endTime := none }] } := by
    have h1 : on_trace_start tsGen {} (some tr)
        = { tsCount := 1, nextCtx := 1, spans := [(tr.trace_id, 0)],
            allSpans := [{ name := tr.name, ctx := 0, parent := none,
                           attrs := [], startTime := tsGen 0, endTime := none }] } := rfl
    rw [h1]
    simp only [on_span_start, hpar, htr, ite_self, hdata]
    simp [tick, startSpan, setAssoc, lookupKey_cons, hne2]
  set st1ex : BridgeState :=
    { tsCount := 2, nextCtx := 2, spans := [(tr.trace_id, 0)],
      allSpans := [{ name := tr.name, ctx := 0, parent := none,
                     attrs := [], startTime := tsGen 0, endTime := none },
                   { name := aname, ctx := 1, parent := some 0,
                     attrs := [], startTime := tsGen 1, endTime := none }] }
    with hst1ex
  obtain ⟨haTs, haCtx2, haSpans, haCtx, haParent, haName, haEnd, haLook⟩ :=
    agent_span_obs o st1ex 1 aname tools handoffs oty
  set A := _process_agent_span o st1ex 1 aname tools handoffs oty with hA
  set B := setSpanAttr A 1 "openai_agents.span_data"
    (.str (o.dumpSpanData (.agent aname tools handoffs oty))) with hB
  have hBts : B.tsCount = 2 := by
    rw [hB, setSpanAttr_tsCount, hA, haTs]
  have hs3 : on_span_end o tsGen
      (on_span_start tsGen (on_trace_start tsGen {} (some tr)) (some sp))
      (some sp) = endSpanRec { B with tsCount := 3 } 1 (tsGen 2) := by
    rw [hs2]
    have hfound : lookupKey
        ([(tr.trace_id, 0), (sp.span_id, 1)] : List (String × Nat))
        sp.span_id = some 1 := by
      rw [lookupKey_cons, if_neg hne2, lookupKey_cons, if_pos rfl]
    rw [on_span_end_found_t o tsGen _ sp 1 hfound, hdata]
    have hfilter : ([(tr.trace_id, 0), (sp.span_id, 1)] :
        List (String × Nat)).filter (fun p => ¬ p.1 = sp.span_id)
        = [(tr.trace_id, 0)] := by
      simp [hne2]
    rw [hfilter]
    show endSpanRec { B with tsCount := B.tsCount + 1 } 1 (tsGen B.tsCount)
        = endSpanRec { B with tsCount := 3 } 1 (tsGen 2)
    rw [hBts]
  set D := endSpanRec { B with tsCount := 3 } 1 (tsGen 2) with hD
  have hDspans : D.spans = [(tr.trace_id, 0)] := by
    rw [hD, endSpanRec_spans]
    show B.spans = _
    rw [hB, setSpanAttr_spans, hA, haSpans]
  have hDts : D.tsCount = 3 := by
    rw [hD, endSpanRec_tsCount]
  have hs4 : bridgeScenario o tsGen tr sp
      = endSpanRec { D with spans := [], tsCount := 4 } 0 (tsGen 3) := by
    unfold bridgeScenario
    rw [hs3]
    have hfound2 : lookupKey D.spans tr.trace_id = some 0 := by
      rw [hDspans, lookupKey_cons, if_pos rfl]
    rw [on_trace_end_found_t tsGen D tr 0 hfound2, hDts, hDspans]
    have hfilter2 : ([(tr.trace_id, 0)] : List (String × Nat)).filter
        (fun p => ¬ p.1 = tr.trace_id) = [] := by
      simp
    rw [hfilter2]
  -- transport every observable back to the explicit grouped state
  have hallB : ∀ {α : Type} (f : OtelSpanRec → α)
      (hf : ∀ r attrs2, f { r with attrs := attrs2 } = f r),
      B.allSpans.map f = st1ex.allSpans.map f := by
    intro α f hf
    rw [hB, setSpanAttr_map_field f hf, hA, agent_span_map_field o st1ex 1
      aname tools handoffs oty f hf]
  have hfinal : ∀ {α : Type} (f : OtelSpanRec → α)
      (hf : ∀ r attrs2, f { r with attrs := attrs2 } = f r),
      (bridgeScenario o tsGen tr sp).allSpans.map f
        = st1ex.allSpans.map (fun r =>
            if r.ctx = 0 then
              f { (if r.ctx = 1 then { r with endTime := some (tsGen 2) } else r)
                  with endTime := some (tsGen 3) }
            else if r.ctx = 1 then f { r with endTime := some (tsGen 2) }
            else f r) := by
    intro α f hf
    rw [hs4, endSpanRec_map_f]
    have h1 : ({ D with spans := ([] : List (String × Nat)), tsCount := 4 } : BridgeState).allSpans = D.allSpans := rfl
    rw [h1, hD, endSpanRec_map_f]
    have h2 : ({ B with tsCount := 3 } : BridgeState).allSpans
        = B.allSpans := rfl
    rw [h2, hallB _ (by
      intro r attrs2
      by_cases hr0 : r.ctx = 0
      · simp only [hr0]
        simp
        exact hf { name := r.name, ctx := 0, parent := r.parent,
                   attrs := r.attrs, startTime := r.startTime,
                   endTime := some (tsGen 3) } attrs2
      · by_cases hr1 : r.ctx = 1
        · simp [hr0, hr1]
          exact hf { name := r.name, ctx := 1, parent := r.parent,
                     attrs := r.attrs, startTime := r.startTime,
                     endTime := some (tsGen 2) } attrs2
        · simp [hr0, hr1]
          exact hf _ _)]
    apply List.map_congr_left
    intro r _
    by_cases hr1 : r.ctx = 1
    · have hr0 : ¬ r.ctx = 0 := by rw [hr1]; decide
      simp [hr0, hr1]
    · by_cases hr0 : r.ctx = 0 <;> simp [hr0, hr1]
  have hlookfinal : (bridgeScenario o tsGen tr sp).allSpans.map
      (fun r => lookupKey r.attrs "gen_ai.agent.name")
        = [none, some (.str aname)] := by
    rw [hs4, endSpanRec_map_lookup]
    have h3 : ({ D with spans := ([] : List (String × Nat)), tsCount := 4 } : BridgeState).allSpans = D.allSpans := rfl
    rw [h3, hD, endSpanRec_map_lookup]
    have h2 : ({ B with tsCount := 3 } : BridgeState).allSpans
        = B.allSpans := rfl
    rw [h2, hB, setSpanAttr_map_lookup_ne _ _ _ _ _ (by decide), hA, haLook]
    simp [lookupKey_nil]
  refine ⟨?_, ?_, ?_, ?_, ?_, hlookfinal, ?_⟩
  · have := congrArg List.length (hfinal (fun r => r.ctx) (fun _ _ => rfl))
    simpa using this
  · have := hfinal (fun r => r.name) (fun _ _ => rfl)
    simpa using this
  · have := hfinal (fun r => r.ctx) (fun _ _ => rfl)
    simpa using this
  · have := hfinal (fun r => r.parent) (fun _ _ => rfl)
    simpa using this
  · have := hfinal (fun r => r.endTime) (fun _ _ => rfl)
    simpa using this
  · rw [hs4, endSpanRec_spans]

/-- Witness for C9: the scenario run on a concrete trace and agent span with
the fixed oracles and the identity timestamp generator. -/
theorem C9_witness :
    ("span_1" : String) ≠ "trace_1" ∧
    ((bridgeScenario ⟨jdFix, pstrFix, dumpSpanDataFix⟩ (fun n => n)
        ⟨"workflow", "trace_1"⟩
        ⟨"trace_1", "span_1", some "trace_1",
          .agent "Assistant" none none none⟩).allSpans.length = 2 ∧
      (bridgeScenario ⟨jdFix, pstrFix, dumpSpanDataFix⟩ (fun n => n)
        ⟨"workflow", "trace_1"⟩
        ⟨"trace_1", "span_1", some "trace_1",
          .agent "Assistant" none none none⟩).allSpans.map (fun r => r.name)
        = ["workflow", "Assistant"] ∧
      (bridgeScenario ⟨jdFix, pstrFix, dumpSpanDataFix⟩ (fun n => n)
        ⟨"workflow", "trace_1"⟩
        ⟨"trace_1", "span_1", some "trace_1",
          .agent "Assistant" none none none⟩).allSpans.map (fun r => r.ctx)
        = [0, 1] ∧
      (bridgeScenario ⟨jdFix, pstrFix, dumpSpanDataFix⟩ (fun n => n)
        ⟨"workflow", "trace_1"⟩
        ⟨"trace_1", "span_1", some "trace_1",
          .agent "Assistant" none none none⟩).allSpans.map (fun r => r.parent)
        = [none, some 0] ∧
      (bridgeScenario ⟨jdFix, pstrFix, dumpSpanDataFix⟩ (fun n => n)
        ⟨"workflow", "trace_1"⟩
        ⟨"trace_1", "span_1", some "trace_1",
          .agent "Assistant" none none none⟩).allSpans.map (fun r => r.endTime)
        = [some 3, some 2] ∧
      (bridgeScenario ⟨jdFix, pstrFix, dumpSpanDataFix⟩ (fun n => n)
        ⟨"workflow", "trace_1"⟩
        ⟨"trace_1", "span_1", some "trace_1",
          .agent "Assistant" none none none⟩).allSpans.map
          (fun r => lookupKey r.attrs "gen_ai.agent.name")
        = [none, some (.str "Assistant")] ∧
      (bridgeScenario ⟨jdFix, pstrFix, dumpSpanDataFix⟩ (fun n => n)
        ⟨"workflow", "trace_1"⟩
        ⟨"trace_1", "span_1", some "trace_1",
          .agent "Assistant" none none none⟩).spans = []) :=
  ⟨by decide,
   C9_agent_trace_bridge_two_spans ⟨jdFix, pstrFix, dumpSpanDataFix⟩
     (fun n => n) ⟨"workflow", "trace_1"⟩
     ⟨"trace_1", "span_1", some "trace_1",
       .agent "Assistant" none none none⟩
     "Assistant" none none none rfl rfl rfl (by decide)⟩

end Introspection
